import Mathlib

/-!
# Verification of the sds_matrix confidence-driven extraction pipeline

Shallow embedding of the core components of the `sds_matrix` repository:
the field validator (`src/core/validator.py`), the heuristic UN-number
extractor (`src/core/heuristics.py`), the field cache
(`src/core/field_cache.py`), the token bucket (`src/core/searxng_client.py`),
the per-field retriever (`src/core/field_retrieval.py`), the document
processor (`src/core/document_processor.py`) and the online enricher
(`src/core/online_enrichment.py`).

Python strings are modelled as `List Char`, Python floats as `ℚ`
(the confidence arithmetic of the source only involves decimal literals and
the field arithmetic of rationals), Python `None` as `Option`, and raised
exceptions as `Except` / `Option` results.  External collaborators (the
language model, the web search client, the vector store, the static UN
table loaded from a CSV data file) are oracle parameters, as the spec
treats them as opaque functions.
-/

namespace SdsMatrix

/-- A Python `str`, modelled as its list of characters. -/
abbrev Str := List Char

/-- Injection of Lean string literals into the model. -/
def pystr (s : String) : Str := s.data

/-- Python `str.isspace` test for one character (ASCII whitespace, as used
by `str.strip()`). -/
def isPySpace (c : Char) : Bool :=
  c = ' ' || c = '\t' || c = '\n' || c = '\x0d' || c = '\x0b' || c = '\x0c'

/-- Python `str.strip()`: remove leading and trailing whitespace. -/
def pyStrip (s : Str) : Str :=
  ((s.dropWhile isPySpace).reverse.dropWhile isPySpace).reverse

/-- ASCII lower-casing of one character (Python `str.lower` on the ASCII
range; the identifiers the code lower-cases are ASCII). -/
def asciiLower (c : Char) : Char :=
  if 65 ≤ c.toNat ∧ c.toNat ≤ 90 then Char.ofNat (c.toNat + 32) else c

/-- ASCII upper-casing of one character (Python `str.upper` on the ASCII
range). -/
def asciiUpper (c : Char) : Char :=
  if 97 ≤ c.toNat ∧ c.toNat ≤ 122 then Char.ofNat (c.toNat - 32) else c

/-- Python `str.lower()`. -/
def pyLower (s : Str) : Str := s.map asciiLower

/-- Python `str.upper()`. -/
def pyUpper (s : Str) : Str := s.map asciiUpper

/-- ASCII decimal digit test (Python `str.isdigit` on the ASCII range). -/
def isDigitChar (c : Char) : Bool := 48 ≤ c.toNat ∧ c.toNat ≤ 57

/-- Python `str.isdigit()`: nonempty and all digits. -/
def pyIsDigit (s : Str) : Bool := !s.isEmpty && s.all isDigitChar

/-- Python `int(...)` on a digit string. -/
def digitsToNat (s : Str) : Nat := s.foldl (fun a c => 10 * a + (c.toNat - 48)) 0

/-- The repository's not-found sentinel value. -/
def naoEncontrado : Str := pystr "NAO ENCONTRADO"

/-- The repository's error sentinel value. -/
def erroSentinel : Str := pystr "ERRO"

/- ------------------------------------------------------------------ -/
/- validator.py                                                        -/
/- ------------------------------------------------------------------ -/

/-- `NumeroONU.check_un_number` (src/core/validator.py lines 22-35):
sentinels pass; otherwise strip, upper-case, drop a leading `UN`,
require a 4-digit number in the range 4..3506. -/
def check_un_number (value : Str) : Except Str Str :=
  if value = naoEncontrado ∨ value = erroSentinel then .ok value
  else
    let v1 := pyUpper (pyStrip value)
    let v2 := if v1.take 2 = pystr "UN" then pyStrip (v1.drop 2) else v1
    if ¬ (pyIsDigit v2 ∧ v2.length = 4) then
      .error (pystr "Numero ONU deve conter 4 digitos.")
    else
      let number := digitsToNat v2
      if ¬ (4 ≤ number ∧ number ≤ 3506) then
        .error (pystr "Numero ONU fora do intervalo valido.")
      else .ok v2

/-- Full anchored match of the CAS regex `^\d{2,7}-\d{2}-\d$`
(src/core/validator.py line 41). -/
def casFormatOk (s : Str) : Bool :=
  let d1 := s.takeWhile isDigitChar
  let rest := s.drop d1.length
  2 ≤ d1.length && d1.length ≤ 7 &&
    match rest with
    | '-' :: a :: b :: '-' :: c :: [] => isDigitChar a && isDigitChar b && isDigitChar c
    | _ => false

/-- `NumeroCAS.check_cas` (src/core/validator.py lines 43-51). -/
def check_cas (value : Str) : Except Str Str :=
  if value = naoEncontrado ∨ value = erroSentinel then .ok value
  else
    let v := pyStrip value
    if ¬ casFormatOk v then .error (pystr "Numero CAS deve seguir o formato ####-##-#.")
    else .ok v

/-- `re.search(r"\d(?:\.\d)?", value)` (src/core/validator.py line 87):
first occurrence of a digit, greedily extended by `.digit`. -/
def classSearch : Str → Option Str
  | [] => none
  | c :: rest =>
    if isDigitChar c then
      match rest with
      | '.' :: d :: _ => if isDigitChar d then some [c, '.', d] else some [c]
      | _ => some [c]
    else classSearch rest

/-- `ClassificacaoONU.VALID_CLASSES` (src/core/validator.py lines 57-79). -/
def validClasses : List Str :=
  [pystr "1", pystr "1.1", pystr "1.2", pystr "1.3", pystr "1.4", pystr "1.5",
   pystr "1.6", pystr "2.1", pystr "2.2", pystr "2.3", pystr "3", pystr "4.1",
   pystr "4.2", pystr "4.3", pystr "5.1", pystr "5.2", pystr "6.1", pystr "6.2",
   pystr "7", pystr "8", pystr "9"]

/-- `ClassificacaoONU.check_class` (src/core/validator.py lines 81-93). -/
def check_class (value : Str) : Except Str Str :=
  if value = naoEncontrado ∨ value = erroSentinel then .ok value
  else
    let v0 := match classSearch value with
      | some m => m
      | none => value
    let v := pyStrip v0
    if v ∉ validClasses then .error (pystr "Classe ONU invalida.")
    else .ok v

/-- `NomeProduto.check_product_name` (src/core/validator.py lines 99-109). -/
def check_product_name (value : Str) : Except Str Str :=
  if value = naoEncontrado ∨ value = erroSentinel then .ok value
  else
    let v := pyStrip value
    if v.length < 3 then .error (pystr "Nome do produto muito curto.")
    else if v.length > 200 then .error (pystr "Nome do produto muito longo.")
    else .ok v

/-- `Fabricante.check_manufacturer` (src/core/validator.py lines 115-125). -/
def check_manufacturer (value : Str) : Except Str Str :=
  if value = naoEncontrado ∨ value = erroSentinel then .ok value
  else
    let v := pyStrip value
    if v.length < 3 then .error (pystr "Nome do fabricante muito curto.")
    else if v.length > 200 then .error (pystr "Nome do fabricante muito longo.")
    else .ok v

/-- `GrupoEmbalagem.check_packing_group` (src/core/validator.py lines 133-141). -/
def check_packing_group (value : Str) : Except Str Str :=
  if value = naoEncontrado ∨ value = erroSentinel then .ok value
  else
    let v := pyUpper (pyStrip value)
    if v ∉ [pystr "I", pystr "II", pystr "III"] then
      .error (pystr "Grupo de embalagem deve ser I, II ou III.")
    else .ok v

/-- The `VALIDATORS` registry (src/core/validator.py lines 144-151),
as the per-field value check each pydantic schema runs. -/
def validatorFor (field_name : Str) : Option (Str → Except Str Str) :=
  if field_name = pystr "numero_onu" then some check_un_number
  else if field_name = pystr "numero_cas" then some check_cas
  else if field_name = pystr "classificacao_onu" then some check_class
  else if field_name = pystr "nome_produto" then some check_product_name
  else if field_name = pystr "fabricante" then some check_manufacturer
  else if field_name = pystr "grupo_embalagem" then some check_packing_group
  else none

/-- `validate_field` (src/core/validator.py lines 154-169).  Instantiating
the pydantic schema runs the per-field value check and the
`confidence ∈ [0,1]` bound of `ExtractionResult`; pydantic reports the
first failing field in declaration order (`value` before `confidence`).
On schema success the status is decided purely by the confidence. -/
def validate_field (field_name : Str) (value : Str) (confidence : ℚ) :
    Str × Option Str :=
  match validatorFor field_name with
  | none => (pystr "not_validated", none)
  | some check =>
    match check value with
    | .error msg => (pystr "invalid", some msg)
    | .ok _ =>
      if ¬ (0 ≤ confidence ∧ confidence ≤ 1) then
        (pystr "invalid", some (pystr "confidence out of range"))
      else if confidence ≥ 9/10 then (pystr "valid", none)
      else if confidence ≥ 7/10 then (pystr "warning", none)
      else (pystr "invalid", some (pystr "Confianca abaixo do limiar minimo (0.7)."))

/- ------------------------------------------------------------------ -/
/- heuristics.py: _extract_numero_onu                                  -/
/- ------------------------------------------------------------------ -/

/-- One regex match of `ONU_PATTERN` inside a text block
(src/core/heuristics.py lines 15-24).  `number` is the captured 4-digit
group; `prefixed` records whether group 1 (the `UN`/`ONU`-prefixed
alternative) matched.  The look-around context tests the source performs
with further regexes on the surrounding snippet are abstracted into the
three booleans: `yearDateCtx` holds when any of the date / month /
version-year patterns around a year-like number matches (lines 154-167),
`afterCommaDot` when the character immediately before the match is `,` or
`.` (line 171), and `casCtx` when the CAS-fragment look-around matches
(lines 177-179). -/
structure OnuMatch where
  number : Str
  prefixed : Bool
  yearDateCtx : Bool
  afterCommaDot : Bool
  casCtx : Bool
deriving DecidableEq, Repr

/-- A heuristic candidate for `numero_onu` (value and confidence; the
snippet context is irrelevant to the claims). -/
structure OnuCandidate where
  value : Str
  confidence : ℚ
deriving DecidableEq, Repr

/-- The match loop of `_extract_numero_onu` over one block
(src/core/heuristics.py lines 130-197): filter each match, return a
prefixed candidate immediately (second component `true`), otherwise keep
the first valid bare number as fallback. -/
def onuScanBlock : List OnuMatch → Option OnuCandidate → Option OnuCandidate × Bool
  | [], best => (best, false)
  | m :: rest, best =>
    let n := digitsToNat m.number
    if ¬ (4 ≤ n ∧ n ≤ 3506) then onuScanBlock rest best
    else if ¬ m.prefixed ∧ (1900 ≤ n ∧ n ≤ 2100) ∧ m.yearDateCtx then
      onuScanBlock rest best
    else if m.afterCommaDot then onuScanBlock rest best
    else if ¬ m.prefixed ∧ m.casCtx then onuScanBlock rest best
    else
      let candidate : OnuCandidate :=
        ⟨m.number, if m.prefixed then 95/100 else 85/100⟩
      if m.prefixed then (some candidate, true)
      else
        match best with
        | none => onuScanBlock rest (some candidate)
        | some b => onuScanBlock rest (some b)

/-- The outer block loop of `_extract_numero_onu`: a prefixed candidate
returns immediately, a bare fallback is carried across blocks. -/
def onuBlocksGo (best : Option OnuCandidate) :
    List (List OnuMatch) → Option OnuCandidate
  | [] => best
  | blk :: rest =>
    match onuScanBlock blk best with
    | (b, true) => b
    | (b, false) => onuBlocksGo b rest

/-- `_extract_numero_onu` (src/core/heuristics.py lines 115-199) over the
search space of text blocks (the section values, or the whole text as a
single block), each block already reduced to its list of regex matches. -/
def extract_numero_onu (blocks : List (List OnuMatch)) : Option OnuCandidate :=
  onuBlocksGo none blocks

/- ------------------------------------------------------------------ -/
/- field_cache.py                                                      -/
/- ------------------------------------------------------------------ -/

/-- `FieldCache._generate_cache_key` (src/core/field_cache.py lines
102-132), up to the final SHA-256: the model keeps the pre-image string
(the code hashes it; equal pre-images give equal hashes, and the claims
are about the pre-image structure).  Python truthiness: a `None` or empty
identifier is omitted. -/
def generate_cache_key (field_name : Str) (product_name cas_number un_number : Option Str) :
    Str :=
  let identifiers :=
    (match product_name with
     | some p => if p ≠ [] then [pystr "name:" ++ pyStrip (pyLower p)] else []
     | none => []) ++
    (match cas_number with
     | some c => if c ≠ [] then [pystr "cas:" ++ pyStrip c] else []
     | none => []) ++
    (match un_number with
     | some u => if u ≠ [] then [pystr "un:" ++ pyStrip u] else []
     | none => []) ++
    [pystr "field:" ++ field_name]
  List.intercalate (pystr "|") identifiers

/-- The cache key as claim C6 describes it: every present identifier
lower-cased and trimmed.  (Spec-side definition, for comparison with
`generate_cache_key`.) -/
def claimed_cache_key (field_name : Str) (product_name cas_number un_number : Option Str) :
    Str :=
  let identifiers :=
    (match product_name with
     | some p => if p ≠ [] then [pystr "name:" ++ pyStrip (pyLower p)] else []
     | none => []) ++
    (match cas_number with
     | some c => if c ≠ [] then [pystr "cas:" ++ pyStrip (pyLower c)] else []
     | none => []) ++
    (match un_number with
     | some u => if u ≠ [] then [pystr "un:" ++ pyStrip (pyLower u)] else []
     | none => []) ++
    [pystr "field:" ++ field_name]
  List.intercalate (pystr "|") identifiers

/-- One row of the `field_cache` table (src/core/field_cache.py lines
21-31 and 71-83).  `cached_at` is the integral timestamp the code stores
(`int(time.time())`). -/
structure CacheRow where
  field_name : Str
  value : Str
  confidence : ℚ
  source : Str
  source_urls : List Str
  cached_at : ℤ
  hit_count : ℕ
deriving DecidableEq, Repr

/-- The persistent field cache: TTL plus the keyed table.  The DuckDB
table with `cache_key` as primary key is modelled as an association list
with unique keys maintained by upsert. -/
structure FieldCacheState where
  ttl : ℚ
  table : List (Str × CacheRow)
deriving DecidableEq, Repr

/-- `FieldCache.put` (src/core/field_cache.py lines 228-289):
`INSERT OR REPLACE` of the row under the generated key, with
`cached_at = int(time.time())` (truncated to whole seconds) and a reset
hit count. -/
def cachePut (c : FieldCacheState) (now : ℚ) (field_name : Str) (value : Str)
    (confidence : ℚ) (source : Str) (source_urls : List Str)
    (product_name cas_number un_number : Option Str) : FieldCacheState :=
  let key := generate_cache_key field_name product_name cas_number un_number
  let row : CacheRow := ⟨field_name, value, confidence, source, source_urls, ⌊now⌋, 0⟩
  { c with table := (key, row) :: c.table.filter (fun kv => kv.1 ≠ key) }

/-- `FieldCache.get` (src/core/field_cache.py lines 134-226): look the key
up; a row older than the TTL is deleted and reported absent; a fresh row
is returned with its hit count incremented (in the table as well). -/
def cacheGet (c : FieldCacheState) (now : ℚ) (field_name : Str)
    (product_name cas_number un_number : Option Str) :
    Option CacheRow × FieldCacheState :=
  let key := generate_cache_key field_name product_name cas_number un_number
  match (c.table.lookup key) with
  | none => (none, c)
  | some row =>
    let age := now - (row.cached_at : ℚ)
    if age > c.ttl then
      (none, { c with table := c.table.filter (fun kv => kv.1 ≠ key) })
    else
      let bumped := { row with hit_count := row.hit_count + 1 }
      (some bumped,
       { c with table := (key, bumped) :: c.table.filter (fun kv => kv.1 ≠ key) })

/-- Default TTL: 30 days in seconds (src/core/field_cache.py line 53). -/
def defaultCacheTtl : ℚ := 30 * 24 * 3600

/- ------------------------------------------------------------------ -/
/- searxng_client.py: TokenBucket                                      -/
/- ------------------------------------------------------------------ -/

/-- `TokenBucket` (src/core/searxng_client.py lines 30-37).  Wall-clock
times are rationals; `time.time()` is passed in explicitly as `now`. -/
structure TokenBucket where
  capacity : ℚ
  tokens : ℚ
  rate : ℚ
  last_update : ℚ
deriving DecidableEq, Repr

/-- `TokenBucket._refill` (src/core/searxng_client.py lines 55-60). -/
def TokenBucket.refill (b : TokenBucket) (now : ℚ) : TokenBucket :=
  { b with
    tokens := min b.capacity (b.tokens + (now - b.last_update) * b.rate)
    last_update := now }

/-- `TokenBucket.consume` (src/core/searxng_client.py lines 39-45). -/
def TokenBucket.consume (b : TokenBucket) (now : ℚ) (amount : ℚ) :
    Bool × TokenBucket :=
  let b := b.refill now
  if b.tokens ≥ amount then (true, { b with tokens := b.tokens - amount })
  else (false, b)

/-- `TokenBucket.wait_time` (src/core/searxng_client.py lines 47-53). -/
def TokenBucket.waitTime (b : TokenBucket) (now : ℚ) (amount : ℚ) :
    ℚ × TokenBucket :=
  let b := b.refill now
  if b.tokens ≥ amount then (0, b)
  else ((amount - b.tokens) / b.rate, b)

/-- `SearXNGClient._wait_for_rate_limit`, token bucket part
(src/core/searxng_client.py lines 238-247): compute the wait, sleep it
out when positive, then consume one token at the post-sleep instant.
Returns the wait, the consume result and the time at which the request
proceeds. -/
def requestPermit (b : TokenBucket) (now : ℚ) : ℚ × Bool × TokenBucket × ℚ :=
  let (wait, b1) := b.waitTime now 1
  if wait > 0 then
    let (ok, b2) := b1.consume (now + wait) 1
    (wait, ok, b2, now + wait)
  else
    let (ok, b2) := b1.consume now 1
    (wait, ok, b2, now)

/-- Run a sequence of `consume(1.0)` permit checks at the given times,
counting how many succeed. -/
def runConsumes (b : TokenBucket) : List ℚ → ℕ × TokenBucket
  | [] => (0, b)
  | t :: ts =>
    let (ok, b1) := b.consume t 1
    let (n, b2) := runConsumes b1 ts
    (n + (if ok then 1 else 0), b2)

/-- Run a sequence of `_wait_for_rate_limit`-style permit requests at the
given times, recording each request's computed wait and consume result. -/
def runRequests (b : TokenBucket) : List ℚ → List (ℚ × Bool) × TokenBucket
  | [] => ([], b)
  | t :: ts =>
    let (wait, ok, b1, _) := requestPermit b t
    let (rest, b2) := runRequests b1 ts
    ((wait, ok) :: rest, b2)

/- ------------------------------------------------------------------ -/
/- document_processor.py                                               -/
/- ------------------------------------------------------------------ -/

/-- A candidate extraction result, as passed around in the result dicts
of the processor (`value`, `confidence`, `context`, `source_urls`). -/
structure Candidate where
  value : Str
  confidence : ℚ
  context : Str
  source_urls : List Str
deriving DecidableEq, Repr

/-- `FieldExtractionConfig` (src/core/document_processor.py lines 24-30). -/
structure FieldExtractionConfig where
  name : Str
  label : Str
  prompt_template : Str
deriving DecidableEq, Repr

/-- `Chunk` from chunk_strategy.py: a labeled block of document text. -/
structure Chunk where
  label : Str
  text : Str
deriving DecidableEq, Repr

/-- Provenance of a persisted extraction row: which call site of
`db.store_extraction` appended it.  The code records this in the row's
`context` column ("Online search: ...", "Tabela ONU (offline)",
"retrieval:...", ...); the model carries it as an explicit tag because
the heuristic/LLM context strings are arbitrary text. -/
inductive RowOrigin where
  | fieldPass
  | onuTable
  | onlineSearch
  | retrieval
deriving DecidableEq, Repr

/-- One row of the append-only `extractions` table, as written by
`DuckDBManager.store_extraction` (src/database/duckdb_manager.py lines
162-202, plus the `source_urls` column its callers in
document_processor.py pass). -/
structure ExtractionRow where
  document_id : ℕ
  field_name : Str
  value : Str
  confidence : ℚ
  context : Str
  validation_status : Str
  validation_message : Option Str
  source_urls : List Str
  origin : RowOrigin
deriving DecidableEq, Repr

/-- The language model collaborator: `LMStudioClient.extract_field` is an
opaque `prompt → (value, confidence, context)` function per the spec; the
prompt is determined by the field config and the chunk, so the oracle
takes those directly. -/
abbrev LlmFn : Type := FieldExtractionConfig → Chunk → Candidate

/-- The duck-typed online search collaborator:
`client.search_online_for_missing_fields(product_name, cas_number,
un_number, missing_fields)` returning a field → result map; `none`
models a raised exception. -/
abbrev OnlineClientFn : Type :=
  Option Str → Option Str → Option Str → List Str → Option (List (Str × Candidate))

/-- The per-chunk LLM loop of `_run_field_extractions`
(src/core/document_processor.py lines 297-312): query the model once per
chunk, keep a response whose confidence is at least the current best,
stop early once the best confidence reaches 0.95.  Also returns the
number of model calls made. -/
def llmChunkLoop (llm : LlmFn) (field : FieldExtractionConfig) :
    List Chunk → Candidate → ℕ → Candidate × ℕ
  | [], best, n => (best, n)
  | c :: rest, best, n =>
    let response := llm field c
    let best1 := if response.confidence ≥ best.confidence then response else best
    if best1.confidence ≥ 95/100 then (best1, n + 1)
    else llmChunkLoop llm field rest best1 (n + 1)

/-- The empty-hint placeholder of `_run_field_extractions` line 265. -/
def defaultBestResult : Candidate := ⟨naoEncontrado, 0, [], []⟩

/-- The per-field body of `_run_field_extractions` (src/core/
document_processor.py lines 262-327), iterated over the configured
fields.  `skipAll` is the document-wide skip decision computed once
before the loop. -/
def runFieldsGo (document_id : ℕ) (chunks : List Chunk)
    (hints : List (Str × Candidate)) (llm : Option LlmFn)
    (vec : Option (Str → List Chunk)) (skipThr : ℚ) (skipAll : Bool) :
    List FieldExtractionConfig → List ExtractionRow × ℕ
  | [] => ([], 0)
  | field :: rest =>
    let best0 := (hints.lookup field.name).getD defaultBestResult
    let skip := skipAll || decide (best0.confidence ≥ skipThr)
    let retrieved : List Chunk :=
      match vec with
      | some search => if skip then [] else search (pyStrip (field.label ++ [' '] ++ best0.value))
      | none => []
    let prompt_chunks := if retrieved = [] then chunks else retrieved
    let (best, calls) :=
      match llm with
      | some llmF => if skip then (best0, 0) else llmChunkLoop llmF field prompt_chunks best0 0
      | none => (best0, 0)
    let (status, message) := validate_field field.name best.value best.confidence
    let row : ExtractionRow :=
      ⟨document_id, field.name, best.value, best.confidence, best.context,
       status, message, best.source_urls, .fieldPass⟩
    let (rows, n) := runFieldsGo document_id chunks hints llm vec skipThr skipAll rest
    (row :: rows, calls + n)

/-- `DocumentProcessor._run_field_extractions` (src/core/
document_processor.py lines 235-327).  Returns the rows stored (one per
configured field, in order) and the total number of language model
calls.  If any heuristic hint meets the skip threshold, if skipping is
forced, or if no model is configured, the document-wide `skip_all_llm`
flag suppresses every model call. -/
def run_field_extractions (document_id : ℕ) (fields : List FieldExtractionConfig)
    (chunks : List Chunk) (hints : List (Str × Candidate)) (llm : Option LlmFn)
    (vec : Option (Str → List Chunk)) (skipThr : ℚ) (force_skip_llm : Bool) :
    List ExtractionRow × ℕ :=
  if chunks = [] then ([], 0)
  else
    let skipAll :=
      force_skip_llm
      || hints.any (fun h => decide (h.2.confidence ≥ skipThr))
      || llm.isNone
    runFieldsGo document_id chunks hints llm vec skipThr skipAll fields

/-- `DuckDBManager.get_field_details` restricted to one field
(src/database/duckdb_manager.py lines 250-272): the latest extraction
row of the document for that field (rows are appended in order, so the
latest is the last one). -/
def latestRow (rows : List ExtractionRow) (document_id : ℕ) (f : Str) :
    Option ExtractionRow :=
  (rows.filter (fun r => r.document_id == document_id && r.field_name == f)).getLast?

/-- One entry of the offline UN table (utils/onu_lookup.py): the hazard
class and packing group mapped to a UN number.  The table itself is
loaded from a CSV data file, so `lookup_un` is an oracle parameter. -/
structure OnuEntry where
  classificacao_onu : Str
  grupo_embalagem : Str
deriving DecidableEq, Repr

/-- The per-field body of `_enrich_with_onu_table` (src/core/
document_processor.py lines 419-441): skip when the current value is
present, not the sentinel and already confident (≥ 0.7); skip an empty
table value; otherwise store the table value at confidence 0.95. -/
def onuTableRowFor (document_id : ℕ) (details : Str → Option ExtractionRow)
    (f : Str) (new_val : Str) : Option ExtractionRow :=
  let current := details f
  let current_val := match current with
    | some r => r.value
    | none => []
  let current_conf : ℚ := match current with
    | some r => r.confidence
    | none => 0
  if current_val ≠ [] ∧ current_val ≠ naoEncontrado ∧ current_conf ≥ 7/10 then none
  else if new_val = [] then none
  else
    let (status, message) := validate_field f new_val (95/100)
    some ⟨document_id, f, new_val, 95/100, pystr "Tabela ONU (offline)",
          status, message, [], .onuTable⟩

/-- `DocumentProcessor._enrich_with_onu_table` (src/core/
document_processor.py lines 411-441): look the document's current UN
number up in the offline table and fill `classificacao_onu` and
`grupo_embalagem` from it where the current value is missing or weak.
Returns the rows appended. -/
def enrich_with_onu_table (document_id : ℕ) (rows : List ExtractionRow)
    (lookup_un : Str → Option OnuEntry) : List ExtractionRow :=
  let details := latestRow rows document_id
  let un_value := match details (pystr "numero_onu") with
    | some r => r.value
    | none => []
  match lookup_un un_value with
  | none => []
  | some entry =>
    [onuTableRowFor document_id details (pystr "classificacao_onu") entry.classificacao_onu,
     onuTableRowFor document_id details (pystr "grupo_embalagem") entry.grupo_embalagem].reduceOption

/-- The store-improved-results loop body of
`_search_online_for_missing_fields` (src/core/document_processor.py lines
379-397): an online result is persisted only when its confidence exceeds
0.5. -/
def onlineRowFor (document_id : ℕ) (fr : Str × Candidate) : Option ExtractionRow :=
  if fr.2.confidence > 1/2 then
    let (status, message) := validate_field fr.1 fr.2.value fr.2.confidence
    some ⟨document_id, fr.1, fr.2.value, fr.2.confidence,
          pystr "Online search: " ++ fr.2.context, status, message,
          fr.2.source_urls, .onlineSearch⟩
  else none

/-- `DocumentProcessor._search_online_for_missing_fields` (src/core/
document_processor.py lines 331-399).  Classify each configured field as
known (confidence ≥ 0.7 and not the sentinel) or missing (confidence
< 0.7, invalid status, or sentinel value), always add
`incompatibilidades` to the missing list, query the online client, and
store every returned result whose confidence exceeds 0.5.  A raised
client exception (`none`) is caught and stores nothing.  Returns the
rows appended; the known/missing field tests are the named helpers
`knownPair` and `missingFieldName` below. -/
def knownPair (details : Str → Option ExtractionRow)
    (field : FieldExtractionConfig) : Option (Str × Str) :=
  let d := details field.name
  let value := match d with
    | some r => r.value
    | none => naoEncontrado
  let confidence : ℚ := match d with
    | some r => r.confidence
    | none => 0
  if confidence ≥ 7/10 ∧ value ≠ naoEncontrado then some (field.name, value) else none

/-- The missing-field test of `_search_online_for_missing_fields`
(src/core/document_processor.py lines 338-362): a field is missing when
it is not known and its latest confidence is below 0.7, its validation
status is invalid, or its value is the sentinel. -/
def missingFieldName (details : Str → Option ExtractionRow)
    (field : FieldExtractionConfig) : Option Str :=
  let d := details field.name
  let value := match d with
    | some r => r.value
    | none => naoEncontrado
  let confidence : ℚ := match d with
    | some r => r.confidence
    | none => 0
  let status := match d with
    | some r => r.validation_status
    | none => pystr "invalid"
  if confidence ≥ 7/10 ∧ value ≠ naoEncontrado then none
  else if confidence < 7/10 ∨ status = pystr "invalid" ∨ value = naoEncontrado then
    some field.name
  else none

/-- The full missing-field list of `_search_online_for_missing_fields`:
the missing classification over all configured fields, with
`incompatibilidades` always appended (src/core/document_processor.py
lines 356-362). -/
def missingList (fields : List FieldExtractionConfig)
    (details : Str → Option ExtractionRow) : List Str :=
  let missing0 : List Str := fields.filterMap (missingFieldName details)
  if pystr "incompatibilidades" ∈ missing0 then missing0
  else missing0 ++ [pystr "incompatibilidades"]

/-- `DocumentProcessor._search_online_for_missing_fields` body proper. -/
def search_online_for_missing_fields (document_id : ℕ)
    (fields : List FieldExtractionConfig) (rows : List ExtractionRow)
    (client : Option OnlineClientFn) : List ExtractionRow :=
  match client with
  | none => []
  | some clientF =>
    let details := latestRow rows document_id
    let known : List (Str × Str) := fields.filterMap (knownPair details)
    let missing := missingList fields details
    if missing = [] then []
    else
      match clientF (known.lookup (pystr "nome_produto"))
          (known.lookup (pystr "numero_cas"))
          (known.lookup (pystr "numero_onu")) missing with
      | none => []
      | some online_results =>
        online_results.filterMap (onlineRowFor document_id)

/-- One row of the `documents` table (src/database/duckdb_manager.py),
restricted to the columns the claims touch. -/
structure DocumentRec where
  id : ℕ
  filename : Str
  file_hash : Str
  file_size : ℕ
  status : Str
deriving DecidableEq, Repr

/-- The relational store, per the spec "treated as a key/value persistence
interface": hash-unique documents and append-only extraction rows. -/
structure Db where
  documents : List DocumentRec
  extractions : List ExtractionRow
  next_id : ℕ
deriving DecidableEq, Repr

/-- A file on disk as `process` observes it: name, byte size and content
hash (`Path.stat().st_size` and the SHA-256 of the content). -/
structure FileInfo where
  filename : Str
  size : ℕ
  hash : Str
deriving DecidableEq, Repr

/-- `DuckDBManager.register_document` (src/database/duckdb_manager.py
lines 91-132): reuse the id of an existing document with the same
content hash, otherwise insert a new `pending` document. -/
def registerDocument (db : Db) (file : FileInfo) : ℕ × Db :=
  match db.documents.find? (fun d => d.file_hash == file.hash) with
  | some d => (d.id, db)
  | none =>
    (db.next_id,
     { db with
       documents := db.documents ++
         [⟨db.next_id, file.filename, file.hash, file.size, pystr "pending"⟩]
       next_id := db.next_id + 1 })

/-- Modelled from the spec: `DuckDBManager.clear_document_extractions`,
called at src/core/document_processor.py line 151 but absent from the
checked-in `duckdb_manager.py`.  The spec says "reprocessing clears
prior extractions for that run" / "reprocessing discards prior in-run
extractions before writing new ones": remove the document's rows. -/
def clearDocumentExtractions (db : Db) (document_id : ℕ) : Db :=
  { db with extractions := db.extractions.filter (fun r => r.document_id != document_id) }

/-- `DuckDBManager.update_document_status` (src/database/duckdb_manager.py
lines 134-160), restricted to the status column. -/
def updateDocumentStatus (db : Db) (document_id : ℕ) (status : Str) : Db :=
  { db with
    documents := db.documents.map (fun d =>
      if d.id == document_id then { d with status := status } else d) }

/-- The output of `extractor.extract` composed with
`ChunkStrategy.make_chunks` and `HeuristicExtractor.extract`: the chunks
and the heuristic hints are the only data the downstream field pipeline
reads, and the claims quantify over all their possible values, so the
extraction/chunking/heuristics front end is summarised by its output. -/
structure ExtractedData where
  chunks : List Chunk
  hints : List (Str × Candidate)

/-- The construction-time collaborators and configuration of
`DocumentProcessor.__init__` (src/core/document_processor.py lines
105-129).  `online_client` stands for `self.online_search or self.llm`,
the duck-typed object whose `search_online_for_missing_fields` the
online completion step calls.  `can_handle`/`extract` summarise the
extractor list (`_select_extractor` raises when no extractor can handle
the file; a raised extraction error is `extract = none`). -/
structure ProcessorParams where
  fields : List FieldExtractionConfig
  llm : Option LlmFn
  online_client : Option OnlineClientFn
  vec : Option (Str → List Chunk)
  heuristic_confidence_skip : ℚ
  lookup_un : Str → Option OnuEntry
  max_file_size_mb : ℕ
  can_handle : FileInfo → Bool
  extract : FileInfo → Option ExtractedData

/-- `DocumentProcessor.process` (src/core/document_processor.py lines
131-219).  Returns the final store, the raised-or-ok outcome, and (as an
explicit trace) the list of extraction rows this call appended, in
order.  Control flow follows the source: the size validation and the
extractor selection happen before registration; a failed text extraction
marks the document failed and re-raises; the `finally` block runs the
online completion step in online mode on both paths, swallowing its
errors. -/
def process (P : ProcessorParams) (db : Db) (file : FileInfo) (mode : Str) :
    Db × Except Str Unit × List ExtractionRow :=
  if file.size > P.max_file_size_mb * 1024 * 1024 then
    (db, .error (pystr "Arquivo excede o limite configurado."), [])
  else if ¬ P.can_handle file then
    (db, .error (pystr "Nao ha extrator para o arquivo."), [])
  else
    let mode_normalized := pyLower mode
    let (document_id, db1) := registerDocument db file
    let db2 := clearDocumentExtractions db1 document_id
    match P.extract file with
    | none =>
      let db3 := updateDocumentStatus db2 document_id (pystr "failed")
      let rows3 :=
        if mode_normalized = pystr "online" then
          search_online_for_missing_fields document_id P.fields db3.extractions
            P.online_client
        else []
      let db4 := { db3 with extractions := db3.extractions ++ rows3 }
      (db4, .error (pystr "falha na extracao do texto"), rows3)
    | some data =>
      let (rows1, _calls) :=
        run_field_extractions document_id P.fields data.chunks data.hints P.llm
          P.vec P.heuristic_confidence_skip false
      let db3 := { db2 with extractions := db2.extractions ++ rows1 }
      let rows2 := enrich_with_onu_table document_id db3.extractions P.lookup_un
      let db4 := { db3 with extractions := db3.extractions ++ rows2 }
      let db5 := updateDocumentStatus db4 document_id (pystr "success")
      let rows3 :=
        if mode_normalized = pystr "online" then
          search_online_for_missing_fields document_id P.fields db5.extractions
            P.online_client
        else []
      let db6 := { db5 with extractions := db5.extractions ++ rows3 }
      (db6, .ok (), rows1 ++ rows2 ++ rows3)

/-- The rows appended by one `process` call: one document's processing
run, in persistence order. -/
def processTrace (P : ProcessorParams) (db : Db) (file : FileInfo) (mode : Str) :
    List ExtractionRow :=
  (process P db file mode).2.2

/- ------------------------------------------------------------------ -/
/- utils/config.py defaults                                            -/
/- ------------------------------------------------------------------ -/

/-- `CONFIDENCE_THRESHOLD_LOW` default (src/utils/config.py line 189). -/
def CONFIDENCE_THRESHOLD_LOW : ℚ := 6/10

/-- `CONFIDENCE_THRESHOLD_MID` default (src/utils/config.py line 192). -/
def CONFIDENCE_THRESHOLD_MID : ℚ := 75/100

/-- `REFINEMENT_MAX_ROUNDS` default (src/utils/config.py line 197). -/
def REFINEMENT_MAX_ROUNDS : ℕ := 2

/-- `MAX_FILE_SIZE_MB` default (src/utils/config.py line 170). -/
def MAX_FILE_SIZE_MB : ℕ := 10

/-- `FIELD_SEARCH_MAX_ATTEMPTS` default (src/utils/config.py line 260). -/
def FIELD_SEARCH_MAX_ATTEMPTS : ℕ := 3

/- ------------------------------------------------------------------ -/
/- online_enrichment.py                                                -/
/- ------------------------------------------------------------------ -/

/-- The (value, confidence) view of one entry of
`db.get_field_details(document_id)`, as the enricher reads it. -/
structure FieldData where
  value : Str
  confidence : ℚ
deriving DecidableEq, Repr

/-- The qualification loop body of `OnlineEnricher.enrich_document`
(src/core/online_enrichment.py lines 126-145): a field is collected for
refinement unless its value is the not-found sentinel, its confidence is
at least the MID threshold, or its confidence is below the LOW
threshold.  Iteration order is the `dict.items()` order of the details
map. -/
def toRefine (details : List (Str × FieldData)) : List Str :=
  details.filterMap (fun fd =>
    if fd.2.value = naoEncontrado then none
    else if fd.2.confidence ≥ CONFIDENCE_THRESHOLD_MID then none
    else if fd.2.confidence < CONFIDENCE_THRESHOLD_LOW then none
    else some fd.1)

/-- The qualification predicate exactly as claim C8 words it: value
present and confidence strictly between the LOW and MID thresholds.
(Spec-side definition, for comparison with `toRefine`.) -/
def claimedQualifies (d : FieldData) : Prop :=
  d.value ≠ naoEncontrado ∧
  CONFIDENCE_THRESHOLD_LOW < d.confidence ∧ d.confidence < CONFIDENCE_THRESHOLD_MID

/-- The targeted-refinement `while` loop of
`OnlineEnricher.enrich_document` (src/core/online_enrichment.py lines
124-162), with `DocumentProcessor.refine_fields` abstracted as the
oracle `refine` (it re-reads the store after each round; `none` models a
raised exception, which the loop catches and breaks on).  Returns the
final details and the number of refine rounds invoked. -/
def refinementLoopGo (refine : List (Str × FieldData) → List Str → Option (List (Str × FieldData))) :
    ℕ → List (Str × FieldData) → ℕ → List (Str × FieldData) × ℕ
  | 0, details, rounds => (details, rounds)
  | fuel + 1, details, rounds =>
    let to_refine := toRefine details
    if to_refine = [] then (details, rounds)
    else
      match refine details to_refine with
      | none => (details, rounds + 1)
      | some details1 => refinementLoopGo refine fuel details1 (rounds + 1)

/-- The refinement phase of `enrich_document`: at most
`REFINEMENT_MAX_ROUNDS` rounds, stopping as soon as no field qualifies
or a round fails. -/
def refinementLoop (refine : List (Str × FieldData) → List Str → Option (List (Str × FieldData)))
    (details : List (Str × FieldData)) : List (Str × FieldData) × ℕ :=
  refinementLoopGo refine REFINEMENT_MAX_ROUNDS details 0

/- ------------------------------------------------------------------ -/
/- field_retrieval.py                                                  -/
/- ------------------------------------------------------------------ -/

/-- One search hit as the search client returns it. -/
structure Hit where
  title : Str
  url : Str
  snippet : Str
deriving DecidableEq, Repr

/-- `SearXNGClient._search_with_retry` as an oracle: call index (the
model threads a counter so successive calls may answer differently),
query, `num_results`; `none` models a raised exception. -/
abbrev SearchFn : Type := ℕ → Str → ℕ → Option (List Hit)

/-- `SearXNGClient._crawl_url` as an oracle: call index and url; `none`
models a raised exception. -/
abbrev CrawlFn : Type := ℕ → Str → Option Str

/-- `random.shuffle` as an oracle: the permutation applied at a given
attempt. -/
abbrev ShuffleFn : Type := ℕ → List Str → List Str

/-- The field-specific query expansions of `FieldQueryBuilder.build`
(src/core/field_retrieval.py lines 65-97). -/
def fieldSynonyms (field_name : Str) : List Str :=
  if field_name = pystr "numero_cas" then
    [pystr "CAS number", pystr "chemical abstract service", pystr "CAS registry"]
  else if field_name = pystr "numero_onu" then
    [pystr "UN number", pystr "UN ID", pystr "numero ONU"]
  else if field_name = pystr "classificacao_onu" then
    [pystr "UN hazard class", pystr "classe ONU", pystr "hazard classification"]
  else if field_name = pystr "grupo_embalagem" then
    [pystr "packing group", pystr "grupo de embalagem", pystr "UN packing group"]
  else if field_name = pystr "incompatibilidades" then
    [pystr "incompatibilities", pystr "storage incompatibilities",
     pystr "incompatible materials"]
  else if field_name = pystr "fabricante" then
    [pystr "manufacturer", pystr "fabricante", pystr "supplier"]
  else if field_name = pystr "nome_produto" then
    [pystr "product name", pystr "nome do produto", pystr "trade name"]
  else [field_name]

/-- Order-preserving deduplication (the seen-set loop of
`FieldQueryBuilder.build` lines 106-112). -/
def dedupFirst : List Str → List Str
  | [] => []
  | q :: rest => q :: dedupFirst (rest.filter (fun r => r ≠ q))
termination_by l => l.length
decreasing_by
  simp only [List.length_cons]
  exact Nat.lt_succ_of_le (List.length_filter_le _ _)

/-- `FieldQueryBuilder.build` (src/core/field_retrieval.py lines 48-113):
identifier string plus per-field synonym phrases, deduplicated and
capped at 6 variants. -/
def fieldQueryBuild (field_name : Str) (product cas un : Option Str) : List Str :=
  let base_terms : List Str :=
    (match product with
     | some p => if p ≠ [] then [p] else []
     | none => []) ++
    (match cas with
     | some c => if c ≠ [] then [pystr "CAS " ++ c] else []
     | none => []) ++
    (match un with
     | some u => if u ≠ [] then [pystr "UN " ++ u] else []
     | none => [])
  let identifiers := pyStrip (List.intercalate (pystr " ") (base_terms.filter (fun t => t ≠ [])))
  let queries := (fieldSynonyms field_name).flatMap (fun extra =>
    if identifiers ≠ [] then
      [identifiers ++ pystr " " ++ extra ++ pystr " safety data sheet",
       identifiers ++ pystr " " ++ extra ++ pystr " SDS"]
    else [extra ++ pystr " safety data sheet"])
  (dedupFirst queries).take 6

/-- First index of `needle` in `hay` (Python `str.find`). -/
def substrIdx (needle : Str) : Str → Option ℕ
  | [] => if needle = [] then some 0 else none
  | c :: rest =>
    if needle.isPrefixOf (c :: rest) then some 0
    else (substrIdx needle rest).map (fun i => i + 1)

/-- Python's `in` substring test. -/
def strContains (needle hay : Str) : Bool := (substrIdx needle hay).isSome

/-- The running best snippet/source/score triple of
`retrieve_missing_fields` (src/core/field_retrieval.py lines 181-183). -/
structure BestSnip where
  snippet : Str
  source : Str
  conf : ℚ
deriving DecidableEq, Repr

/-- The hit-scoring loop (src/core/field_retrieval.py lines 210-221):
score a snippet by length, boosted by 1.1 when the field name occurs in
the lower-cased snippet, keeping the best-scoring one. -/
def scoreHits (field : Str) (hits : List Hit) (best : BestSnip) : BestSnip :=
  hits.foldl (fun b hit =>
    let snippet := pyStrip hit.snippet
    if snippet = [] then b
    else
      let score0 : ℚ := snippet.length
      let score := if strContains field (pyLower snippet) then score0 * (11/10) else score0
      if score > b.conf then ⟨snippet.take 800, hit.url, score⟩ else b) best

/-- The per-query search loop (src/core/field_retrieval.py lines
196-223): one `_search_with_retry(q, 2)` per query (a raised exception
is skipped), hits scored, early exit once the best score exceeds 900.
Threads the search-call counter. -/
def queryLoop (field : Str) (searchF : SearchFn) :
    List Str → ℕ → BestSnip → BestSnip × ℕ
  | [], sCalls, best => (best, sCalls)
  | q :: rest, sCalls, best =>
    match searchF sCalls q 2 with
    | none => queryLoop field searchF rest (sCalls + 1) best
    | some hits =>
      let best := scoreHits field hits best
      if best.conf > 900 then (best, sCalls + 1)
      else queryLoop field searchF rest (sCalls + 1) best

/-- The optional crawling loop (src/core/field_retrieval.py lines
235-282): for each query (until the page cap), search one hit, crawl its
url, and extract a 400-character window around the field keyword,
replacing the best snippet when the focused window is longer.  Returns
the updated best, the search and crawl call counters and the number of
pages crawled. -/
def crawlLoop (field : Str) (maxPages : ℕ) (searchF : SearchFn) (crawlF : CrawlFn) :
    List Str → ℕ → ℕ → ℕ → BestSnip → BestSnip × ℕ × ℕ × ℕ
  | [], sCalls, cCalls, crawled, best => (best, sCalls, cCalls, crawled)
  | q :: rest, sCalls, cCalls, crawled, best =>
    if crawled ≥ maxPages then (best, sCalls, cCalls, crawled)
    else
      match searchF sCalls q 1 with
      | none => crawlLoop field maxPages searchF crawlF rest (sCalls + 1) cCalls crawled best
      | some hits =>
        match hits with
        | [] => crawlLoop field maxPages searchF crawlF rest (sCalls + 1) cCalls crawled best
        | hit :: _ =>
          if hit.url = [] then
            crawlLoop field maxPages searchF crawlF rest (sCalls + 1) cCalls crawled best
          else
            let page := (crawlF cCalls hit.url).getD []
            if page = [] then
              crawlLoop field maxPages searchF crawlF rest (sCalls + 1) (cCalls + 1) crawled best
            else
              let lowered := pyLower page
              let token := pyLower field
              let best1 :=
                match substrIdx token lowered with
                | none => best
                | some idx =>
                  let start := idx - 400
                  let stop := min page.length (idx + 400)
                  let focused := pyStrip ((page.drop start).take (stop - start))
                  if focused ≠ [] ∧ focused.length > best.snippet.length then
                    ⟨focused.take 800, hit.url, (focused.length : ℚ)⟩
                  else best
              crawlLoop field maxPages searchF crawlF rest (sCalls + 1) (cCalls + 1)
                (crawled + 1) best1

/-- Retrieval tunables.  `sufficiency_threshold` — modelled from the
spec: `CONFIDENCE_SUFFICIENCY_THRESHOLD` is imported from
`utils/config.py` at src/core/field_retrieval.py line 22 but has no
definition in the checked-in config; the spec only calls it "a
'sufficient' threshold", so it stays a parameter.  The others default to
`FIELD_SEARCH_MAX_ATTEMPTS = 3`, `CRAWL4AI_ENABLED`,
`MAX_CRAWL_PAGES_PER_FIELD = 2`. -/
structure RetrievalConfig where
  sufficiency_threshold : ℚ
  max_attempts : ℕ
  crawl_enabled : Bool
  max_crawl_pages : ℕ

/-- The attempt loop of `retrieve_missing_fields` (src/core/
field_retrieval.py lines 185-302): shuffle the (mutated-in-place) query
list after the first attempt, run the search pass, optionally crawl when
the best score is below 400, and stop when the result is sufficient
(score at or above the sufficiency threshold, or any snippet found) or
the attempt budget is spent; otherwise back off and retry. -/
def attemptsGo (field : Str) (cfg : RetrievalConfig) (searchF : SearchFn)
    (crawlF : CrawlFn) (shuffleF : ShuffleFn) :
    List ℕ → List Str → ℕ → ℕ → BestSnip → BestSnip × ℕ × ℕ
  | [], _, sCalls, cCalls, best => (best, sCalls, cCalls)
  | attempt :: restAttempts, queries, sCalls, cCalls, best =>
    let queries := if attempt > 0 then shuffleF attempt queries else queries
    let (best, sCalls) := queryLoop field searchF queries sCalls best
    let (best, sCalls, cCalls, _) :=
      if best.conf < 400 ∧ cfg.crawl_enabled ∧ cfg.max_crawl_pages > 0 then
        crawlLoop field cfg.max_crawl_pages searchF crawlF queries sCalls cCalls 0 best
      else (best, sCalls, cCalls, 0)
    let sufficient := best.conf ≥ cfg.sufficiency_threshold ∨ best.snippet ≠ []
    let last_attempt := attempt = cfg.max_attempts - 1
    if sufficient ∨ last_attempt then (best, sCalls, cCalls)
    else attemptsGo field cfg searchF crawlF shuffleF restAttempts queries sCalls cCalls best

/-- `RetrievalResult` (src/core/field_retrieval.py lines 35-40). -/
structure RetrievalResult where
  field_name : Str
  value : Str
  confidence : ℚ
  source : Str
deriving DecidableEq, Repr

/-- The per-field body of `FieldRetriever.retrieve_missing_fields`
(src/core/field_retrieval.py lines 136-352).  A fresh cache entry at or
above `CONFIDENCE_THRESHOLD_LOW` is returned and stored directly with
zero search-client calls; otherwise query variants are built and the
attempt loop runs, the raw score is normalised to
`min(0.95, 0.4 + score/2500)`, and a result at or above the low
threshold is persisted and written through to the cache.  Returns the
result, the number of search calls, the number of crawl calls, the
extraction rows stored, and the updated cache. -/
def retrieve_field (cfg : RetrievalConfig) (cache : FieldCacheState) (now : ℚ)
    (searchF : SearchFn) (crawlF : CrawlFn) (shuffleF : ShuffleFn)
    (document_id : ℕ) (field : Str) (product cas un : Option Str) :
    RetrievalResult × ℕ × ℕ × List ExtractionRow × FieldCacheState :=
  let (cached, cache1) := cacheGet cache now field product cas un
  match cached with
  | some entry =>
    if entry.confidence ≥ CONFIDENCE_THRESHOLD_LOW then
      let (status, message) := validate_field field entry.value entry.confidence
      let row : ExtractionRow :=
        ⟨document_id, field, entry.value, entry.confidence,
         pystr "cached:" ++ entry.source, status, message, entry.source_urls,
         .retrieval⟩
      (⟨field, entry.value, entry.confidence, entry.source⟩, 0, 0, [row], cache1)
    else
      retrieveSearchPath cfg cache1 now searchF crawlF shuffleF document_id field
        product cas un
  | none =>
    retrieveSearchPath cfg cache1 now searchF crawlF shuffleF document_id field
      product cas un
where
  retrieveSearchPath (cfg : RetrievalConfig) (cache1 : FieldCacheState) (now : ℚ)
      (searchF : SearchFn) (crawlF : CrawlFn) (shuffleF : ShuffleFn)
      (document_id : ℕ) (field : Str) (product cas un : Option Str) :
      RetrievalResult × ℕ × ℕ × List ExtractionRow × FieldCacheState :=
    let queries := fieldQueryBuild field product cas un
    let (best, sCalls, cCalls) :=
      attemptsGo field cfg searchF crawlF shuffleF (List.range cfg.max_attempts)
        queries 0 0 ⟨[], [], 0⟩
    let result : RetrievalResult :=
      if best.snippet ≠ [] then
        ⟨field, best.snippet, min (95/100) (2/5 + best.conf / 2500),
         if best.source = [] then pystr "search" else best.source⟩
      else ⟨field, naoEncontrado, 0, pystr "search"⟩
    if result.confidence ≥ CONFIDENCE_THRESHOLD_LOW then
      let (status, message) := validate_field field result.value result.confidence
      let source_urls := if result.source ≠ [] then [result.source] else []
      let row : ExtractionRow :=
        ⟨document_id, field, result.value, result.confidence,
         pystr "retrieval:" ++ result.source, status, message, source_urls,
         .retrieval⟩
      let cache2 := cachePut cache1 now field result.value result.confidence
        result.source source_urls product cas un
      (result, sCalls, cCalls, [row], cache2)
    else (result, sCalls, cCalls, [], cache1)

/- ------------------------------------------------------------------ -/
/- Concrete scenario: one document whose online completion regresses   -/
/- a field's confidence (used to settle the monotonicity claim).       -/
/- ------------------------------------------------------------------ -/

/-- A processor whose heuristics find `numero_onu = 1234` at confidence
0.6 (no model configured), and whose online client answers a missing
`numero_onu` with confidence 0.55. -/
def c2DemoParams : ProcessorParams where
  fields := [⟨pystr "numero_onu", pystr "Numero ONU", pystr "T"⟩]
  llm := none
  online_client := some (fun _ _ _ ms =>
    some (if pystr "numero_onu" ∈ ms
          then [(pystr "numero_onu", ⟨pystr "5678", 11/20, [], []⟩)]
          else []))
  vec := none
  heuristic_confidence_skip := 82/100
  lookup_un := fun _ => none
  max_file_size_mb := 10
  can_handle := fun _ => true
  extract := fun _ =>
    some ⟨[⟨pystr "S", pystr "t"⟩],
          [(pystr "numero_onu", ⟨pystr "1234", 3/5, pystr "ctx", []⟩)]⟩

/-- Empty store for the regression scenario. -/
def c2DemoDb : Db := ⟨[], [], 1⟩

/-- The file of the regression scenario. -/
def c2DemoFile : FileInfo := ⟨pystr "a.pdf", 100, pystr "h"⟩

/-- The first row the regression scenario persists (heuristic value at
confidence 0.6). -/
def c2DemoRow1 : ExtractionRow :=
  ⟨1, pystr "numero_onu", pystr "1234", 3/5, pystr "ctx", pystr "invalid",
   some (pystr "Confianca abaixo do limiar minimo (0.7)."), [], .fieldPass⟩

/-- The second row the regression scenario persists (online value at
confidence 0.55, lower than the earlier 0.6). -/
def c2DemoRow2 : ExtractionRow :=
  ⟨1, pystr "numero_onu", pystr "5678", 11/20, pystr "Online search: ",
   pystr "invalid", some (pystr "Numero ONU fora do intervalo valido."), [],
   .onlineSearch⟩

/- ================================================================== -/
/- Theorems                                                            -/
/- ================================================================== -/

theorem isPySpace_of_digit {c : Char} (h : isDigitChar c = true) :
    isPySpace c = false := by
  simp only [isDigitChar, decide_eq_true_eq] at h
  simp only [isPySpace, Bool.or_eq_false_iff, decide_eq_false_iff_not]
  refine ⟨⟨⟨⟨⟨?_, ?_⟩, ?_⟩, ?_⟩, ?_⟩, ?_⟩ <;>
    (intro hc; subst hc; revert h; decide)

theorem dropWhile_eq_self_of_all {p : Char → Bool} (l : Str)
    (h : ∀ c ∈ l, p c = false) : l.dropWhile p = l := by
  cases l with
  | nil => rfl
  | cons a t =>
    rw [List.dropWhile_cons, h a (List.mem_cons_self a t)]
    simp

theorem pyStrip_all_digits {s : Str} (h : s.all isDigitChar = true) :
    pyStrip s = s := by
  have hall : ∀ c ∈ s, isPySpace c = false := fun c hc =>
    isPySpace_of_digit (List.all_eq_true.mp h c hc)
  unfold pyStrip
  rw [dropWhile_eq_self_of_all s hall,
      dropWhile_eq_self_of_all s.reverse (fun c hc => hall c (List.mem_reverse.mp hc)),
      List.reverse_reverse]

theorem asciiUpper_of_digit {c : Char} (h : isDigitChar c = true) :
    asciiUpper c = c := by
  simp only [isDigitChar, decide_eq_true_eq] at h
  unfold asciiUpper
  rw [if_neg (by omega)]

theorem pyUpper_of_digits {s : Str} (h : s.all isDigitChar = true) :
    pyUpper s = s := by
  unfold pyUpper
  induction s with
  | nil => rfl
  | cons a t ih =>
    simp only [List.all_cons, Bool.and_eq_true] at h
    simp [asciiUpper_of_digit h.1, ih h.2]

/-- C10: for every field with a registered validator and every
confidence in [0,1], `validate_field` on a sentinel value
("NAO ENCONTRADO" or "ERRO") never fails the per-field syntax check, and
its status is decided purely by the confidence: "valid" at ≥ 0.9,
"warning" at ≥ 0.7, otherwise "invalid" — so "ERRO" at confidence ≥ 0.9
is reported "valid". -/
theorem C10_sentinel_status_by_confidence (field v : Str) (c : ℚ)
    (hf : (validatorFor field).isSome) (hv : v = naoEncontrado ∨ v = erroSentinel)
    (h0 : 0 ≤ c) (h1 : c ≤ 1) :
    validate_field field v c =
      (if c ≥ 9/10 then (pystr "valid", none)
       else if c ≥ 7/10 then (pystr "warning", none)
       else (pystr "invalid",
             some (pystr "Confianca abaixo do limiar minimo (0.7)."))) := by
  obtain ⟨chk, hchk⟩ := Option.isSome_iff_exists.mp hf
  have hok : chk v = .ok v := by
    unfold validatorFor at hchk
    split_ifs at hchk <;>
      (injection hchk with h; subst h) <;>
      first
        | (rw [check_un_number, if_pos hv])
        | (rw [check_cas, if_pos hv])
        | (rw [check_class, if_pos hv])
        | (rw [check_product_name, if_pos hv])
        | (rw [check_manufacturer, if_pos hv])
        | (rw [check_packing_group, if_pos hv])
  simp only [validate_field]
  rw [hchk]
  simp only [hok]
  rw [if_neg (not_not_intro ⟨h0, h1⟩)]

/-- Witness for C10: the "ERRO" sentinel under `numero_onu` at
confidence 0.95 is reported "valid". -/
theorem C10_witness :
    validate_field (pystr "numero_onu") erroSentinel (95/100) = (pystr "valid", none) := by
  have h := C10_sentinel_status_by_confidence (pystr "numero_onu") erroSentinel (95/100)
    (by decide) (Or.inr rfl) (by norm_num) (by norm_num)
  rw [h, if_pos (by norm_num)]

theorem onuScanBlock_range (ms : List OnuMatch) (best : Option OnuCandidate)
    (hbest : ∀ c, best = some c → 4 ≤ digitsToNat c.value ∧ digitsToNat c.value ≤ 3506) :
    ∀ c, (onuScanBlock ms best).1 = some c →
      4 ≤ digitsToNat c.value ∧ digitsToNat c.value ≤ 3506 := by
  induction ms generalizing best with
  | nil => simpa [onuScanBlock] using hbest
  | cons m rest ih =>
    intro c hc
    rw [onuScanBlock] at hc
    by_cases h1 : ¬ (4 ≤ digitsToNat m.number ∧ digitsToNat m.number ≤ 3506)
    · rw [if_pos h1] at hc
      exact ih best hbest c hc
    · rw [if_neg h1] at hc
      push_neg at h1
      split_ifs at hc with h2 h3 h4 h5
      · exact ih best hbest c hc
      · exact ih best hbest c hc
      · exact ih best hbest c hc
      · simp only [Prod.fst] at hc
        injection hc with hc
        subst hc
        exact h1
      · cases hb : best with
        | none =>
          rw [hb] at hc
          refine ih _ ?_ c hc
          intro d hd
          injection hd with hd
          subst hd
          exact ⟨h1.1, h1.2⟩
        | some b =>
          rw [hb] at hc
          refine ih _ ?_ c hc
          intro d hd
          injection hd with hd
          subst hd
          exact hbest b hb

theorem onuBlocksGo_range (blocks : List (List OnuMatch)) (best : Option OnuCandidate)
    (hbest : ∀ c, best = some c → 4 ≤ digitsToNat c.value ∧ digitsToNat c.value ≤ 3506) :
    ∀ c, onuBlocksGo best blocks = some c →
      4 ≤ digitsToNat c.value ∧ digitsToNat c.value ≤ 3506 := by
  induction blocks generalizing best with
  | nil => simpa [onuBlocksGo] using hbest
  | cons blk rest ih =>
    intro c hc
    rw [onuBlocksGo] at hc
    rcases hp : onuScanBlock blk best with ⟨b, flag⟩
    rw [hp] at hc
    cases flag with
    | true =>
      simp only at hc
      exact onuScanBlock_range blk best hbest c (by rw [hp, hc])
    | false =>
      simp only at hc
      exact ih b (fun d hd => onuScanBlock_range blk best hbest d (by rw [hp]; exact hd)) c hc

/-- C9: the heuristic `numero_onu` extractor only produces candidates
whose number lies in 4..3506 (so a match on 9999 never yields a
candidate, whatever its context flags), and the `numero_onu` validator
accepts a 4-digit digit string exactly when its value lies in 4..3506 —
in particular it rejects "9999" as out of range. -/
theorem C9_un_number_range :
    (∀ blocks c, extract_numero_onu blocks = some c →
       4 ≤ digitsToNat c.value ∧ digitsToNat c.value ≤ 3506)
    ∧ (∀ p y a k, extract_numero_onu [[⟨pystr "9999", p, y, a, k⟩]] = none)
    ∧ (∀ s : Str, pyIsDigit s = true → s.length = 4 →
        ((∃ v, check_un_number s = .ok v) ↔
          4 ≤ digitsToNat s ∧ digitsToNat s ≤ 3506))
    ∧ check_un_number (pystr "9999") =
        .error (pystr "Numero ONU fora do intervalo valido.") := by
  refine ⟨?_, ?_, ?_, rfl⟩
  · intro blocks c hc
    exact onuBlocksGo_range blocks none (by intro d hd; cases hd) c hc
  · intro p y a k
    have h9 : digitsToNat (pystr "9999") = 9999 := by decide
    simp only [extract_numero_onu, onuBlocksGo, onuScanBlock, h9]
    rw [if_pos (by norm_num)]
  · intro s hd h4
    have hall : s.all isDigitChar = true := by
      simp only [pyIsDigit, Bool.and_eq_true] at hd
      exact hd.2
    have hne : ¬ (s = naoEncontrado ∨ s = erroSentinel) := by
      rintro (rfl | rfl)
      · exact absurd h4 (by decide)
      · exact absurd hall (by decide)
    have hstrip : pyStrip s = s := pyStrip_all_digits hall
    have hupper : pyUpper (pyStrip s) = s := by rw [hstrip]; exact pyUpper_of_digits hall
    have htake : ¬ (s.take 2 = pystr "UN") := by
      intro ht
      have hU : 'U' ∈ s.take 2 := by rw [ht]; decide
      have hUs : 'U' ∈ s := List.take_subset 2 s hU
      have := List.all_eq_true.mp hall 'U' hUs
      exact absurd this (by decide)
    rw [check_un_number, if_neg hne]
    simp only [hupper]
    rw [if_neg htake, if_neg (not_not_intro ⟨hd, h4⟩)]
    constructor
    · rintro ⟨v, hv⟩
      by_cases hr : 4 ≤ digitsToNat s ∧ digitsToNat s ≤ 3506
      · exact hr
      · rw [if_pos hr] at hv
        cases hv
    · intro hr
      exact ⟨s, by rw [if_neg (not_not_intro hr)]⟩

/-- Witness for C9: the accepted value 1234, produced by the extractor
from a prefixed match and accepted by the validator. -/
theorem C9_witness :
    (4 ≤ digitsToNat (pystr "1234") ∧ digitsToNat (pystr "1234") ≤ 3506)
    ∧ (∃ v, check_un_number (pystr "1234") = .ok v) := by
  refine ⟨C9_un_number_range.1 [[⟨pystr "1234", true, false, false, false⟩]]
    ⟨pystr "1234", 95/100⟩ rfl, ?_⟩
  exact (C9_un_number_range.2.2.1 (pystr "1234") (by decide) (by decide)).mpr
    (C9_un_number_range.1 [[⟨pystr "1234", true, false, false, false⟩]]
      ⟨pystr "1234", 95/100⟩ rfl)

theorem runFieldsGo_skipAll_no_calls (document_id : ℕ) (chunks : List Chunk)
    (hints : List (Str × Candidate)) (llm : Option LlmFn)
    (vec : Option (Str → List Chunk)) (skipThr : ℚ) :
    ∀ fields, (runFieldsGo document_id chunks hints llm vec skipThr true fields).2 = 0 := by
  intro fields
  induction fields with
  | nil => rfl
  | cons f rest ih =>
    simp only [runFieldsGo, Bool.true_or]
    cases llm with
    | none => simpa using ih
    | some llmF => simpa using ih

/-- C1: in `_run_field_extractions`, if any heuristic candidate of the
document reaches the skip-confidence threshold, or no language model is
configured, then zero model calls are made for the whole document (the
skip is a document-wide OR over the heuristic hints, not a per-field
decision). -/
theorem C1_document_wide_llm_skip (document_id : ℕ)
    (fields : List FieldExtractionConfig) (chunks : List Chunk)
    (hints : List (Str × Candidate)) (llm : Option LlmFn)
    (vec : Option (Str → List Chunk)) (skipThr : ℚ)
    (h : (∃ p ∈ hints, p.2.confidence ≥ skipThr) ∨ llm = none) :
    (run_field_extractions document_id fields chunks hints llm vec skipThr false).2 = 0 := by
  rw [run_field_extractions]
  by_cases hch : chunks = []
  · rw [if_pos hch]
  · rw [if_neg hch]
    have hskip :
        (false
          || hints.any (fun h => decide (h.2.confidence ≥ skipThr))
          || llm.isNone) = true := by
      rcases h with ⟨p, hp, hpc⟩ | hnone
      · have : hints.any (fun h => decide (h.2.confidence ≥ skipThr)) = true :=
          List.any_eq_true.mpr ⟨p, hp, decide_eq_true hpc⟩
        simp [this]
      · simp [hnone]
    rw [hskip]
    exact runFieldsGo_skipAll_no_calls document_id chunks hints llm vec skipThr fields

/-- Witness for C1: a document with one heuristic hint at confidence
0.95 ≥ 0.82 makes zero model calls even though a model is configured. -/
theorem C1_witness :
    (run_field_extractions 1 [⟨pystr "numero_onu", pystr "Numero ONU", pystr "T"⟩]
      [⟨pystr "S", pystr "t"⟩]
      [(pystr "numero_onu", ⟨pystr "1234", 95/100, [], []⟩)]
      (some (fun _ _ => ⟨pystr "x", 1/2, [], []⟩)) none (82/100) false).2 = 0 :=
  C1_document_wide_llm_skip 1 _ _ _ _ _ _
    (Or.inl ⟨(pystr "numero_onu", ⟨pystr "1234", 95/100, [], []⟩),
      List.mem_singleton.mpr rfl, by norm_num⟩)

/-- C3: a file whose size exceeds the configured ceiling makes `process`
raise the validation error before touching the store: the call returns
the store unchanged (no `DocumentRec` registered) and persists no rows. -/
theorem C3_oversized_file_rejected_before_registration
    (P : ProcessorParams) (db : Db) (file : FileInfo) (mode : Str)
    (h : file.size > P.max_file_size_mb * 1024 * 1024) :
    process P db file mode =
      (db, .error (pystr "Arquivo excede o limite configurado."), []) := by
  rw [process, if_pos h]

/-- Witness for C3: a 10 MB + 1 byte file against the default 10 MB
ceiling leaves the empty store untouched. -/
theorem C3_witness :
    process
      ⟨[], none, none, none, 82/100, fun _ => none, 10, fun _ => true, fun _ => none⟩
      ⟨[], [], 1⟩ ⟨pystr "grande.pdf", 10485761, pystr "h"⟩ (pystr "online") =
      (⟨[], [], 1⟩, .error (pystr "Arquivo excede o limite configurado."), []) :=
  C3_oversized_file_rejected_before_registration _ _ _ _ (by norm_num)

/-- Counterexample for C8: a present field at confidence exactly equal
to the LOW threshold (0.6) is collected for refinement by the code, yet
does not satisfy the claim's "strictly between the low and mid
thresholds" qualification. -/
theorem C8_counterexample :
    toRefine [(pystr "campo", ⟨pystr "x", 3/5⟩)] = [pystr "campo"] ∧
    ¬ claimedQualifies ⟨pystr "x", 3/5⟩ := by
  have hv : ¬ (pystr "x" = naoEncontrado) := by decide
  have hmid : ¬ ((3/5 : ℚ) ≥ CONFIDENCE_THRESHOLD_MID) := by
    norm_num [CONFIDENCE_THRESHOLD_MID]
  have hlow : ¬ ((3/5 : ℚ) < CONFIDENCE_THRESHOLD_LOW) := by
    norm_num [CONFIDENCE_THRESHOLD_LOW]
  refine ⟨?_, ?_⟩
  · simp [toRefine, hv, hmid, hlow]
  · rintro ⟨-, hlt, -⟩
    norm_num [CONFIDENCE_THRESHOLD_LOW] at hlt

/-- C8 (amended): a field is collected for a refinement round exactly
when its stored value is not the not-found sentinel and its confidence
lies in the half-open band `LOW ≤ confidence < MID` (inclusive at the
low threshold); the loop stops as soon as no field qualifies and invokes
at most `REFINEMENT_MAX_ROUNDS` refinement rounds. -/
theorem C8_refinement_band
    (refine : List (Str × FieldData) → List Str → Option (List (Str × FieldData))) :
    (∀ details (f : Str), f ∈ toRefine details ↔
      ∃ d : FieldData, (f, d) ∈ details ∧ d.value ≠ naoEncontrado ∧
        CONFIDENCE_THRESHOLD_LOW ≤ d.confidence ∧
        d.confidence < CONFIDENCE_THRESHOLD_MID)
    ∧ (∀ details, (refinementLoop refine details).2 ≤ REFINEMENT_MAX_ROUNDS)
    ∧ (∀ details, toRefine details = [] → (refinementLoop refine details).2 = 0) := by
  have hgo : ∀ fuel details rounds,
      (refinementLoopGo refine fuel details rounds).2 ≤ rounds + fuel := by
    intro fuel
    induction fuel with
    | zero => intro details rounds; simp [refinementLoopGo]
    | succ n ih =>
      intro details rounds
      rw [refinementLoopGo]
      by_cases he : toRefine details = []
      · rw [if_pos he]
        exact Nat.le_add_right rounds (n + 1)
      · rw [if_neg he]
        cases hr : refine details (toRefine details) with
        | none => exact Nat.add_le_add_left (by omega) rounds
        | some details1 =>
          calc (refinementLoopGo refine n details1 (rounds + 1)).2
              ≤ (rounds + 1) + n := ih details1 (rounds + 1)
            _ = rounds + (n + 1) := by omega
  refine ⟨?_, ?_, ?_⟩
  · intro details f
    constructor
    · intro hf
      obtain ⟨⟨g, d⟩, hmem, hsome⟩ := List.mem_filterMap.mp hf
      by_cases h1 : d.value = naoEncontrado
      · simp [h1] at hsome
      · by_cases h2 : d.confidence ≥ CONFIDENCE_THRESHOLD_MID
        · simp [h1, h2] at hsome
        · by_cases h3 : d.confidence < CONFIDENCE_THRESHOLD_LOW
          · simp [h1, h2, h3] at hsome
          · simp only [h1, h2, h3, if_neg, if_false] at hsome
            have hg : g = f := by
              simp only [if_neg h1, if_neg h2, if_neg h3, Option.some.injEq] at hsome
              exact hsome
            subst hg
            exact ⟨d, hmem, h1, not_lt.mp h3, not_le.mp h2⟩
    · rintro ⟨d, hmem, h1, h2, h3⟩
      refine List.mem_filterMap.mpr ⟨(f, d), hmem, ?_⟩
      rw [if_neg h1, if_neg (not_le.mpr h3), if_neg (not_lt.mpr h2)]
  · intro details
    simpa using hgo REFINEMENT_MAX_ROUNDS details 0
  · intro details he
    rw [refinementLoop, REFINEMENT_MAX_ROUNDS]
    rw [refinementLoopGo, if_pos he]

/-- Witness for C8: with no field qualifying, the loop performs zero
refinement rounds. -/
theorem C8_witness :
    (refinementLoop (fun d _ => some d) []).2 = 0 :=
  (C8_refinement_band (fun d _ => some d)).2.2 [] rfl

/-- Counterexample for C6: the code lower-cases only the product name.
With the UN identifier "A", the code's key pre-image differs from the
claim's all-identifiers-lower-cased pre-image, and keys for "A" and "a"
differ although the claim says case may not matter. -/
theorem C6_counterexample :
    generate_cache_key (pystr "fispq") none none (some (pystr "A")) ≠
      claimed_cache_key (pystr "fispq") none none (some (pystr "A")) ∧
    generate_cache_key (pystr "fispq") none none (some (pystr "A")) ≠
      generate_cache_key (pystr "fispq") none none (some (pystr "a")) := by
  decide

/-- C6 (amended): the cache key is the hash of the segments `name:x`,
`cas:y`, `un:z`, `field:f` joined by `|`, where the product name is
lower-cased and trimmed but the CAS and UN numbers are only trimmed, and
absent or empty identifiers are omitted; hence keys are invariant under
letter case and surrounding whitespace of the product name, and under
surrounding whitespace (only) of the CAS and UN numbers. -/
theorem C6_cache_key_normalization (field p p' c c' u u' : Str)
    (hp : p ≠ []) (hp' : p' ≠ []) (hpe : pyStrip (pyLower p) = pyStrip (pyLower p'))
    (hc : c ≠ []) (hc' : c' ≠ []) (hce : pyStrip c = pyStrip c')
    (hu : u ≠ []) (hu' : u' ≠ []) (hue : pyStrip u = pyStrip u') :
    generate_cache_key field (some p) (some c) (some u) =
      generate_cache_key field (some p') (some c') (some u') := by
  simp only [generate_cache_key, if_pos hp, if_pos hp', if_pos hc, if_pos hc',
    if_pos hu, if_pos hu', hpe, hce, hue]

/-- Witness for C6: " Acetona " and "ACETONA" as product names (case and
whitespace differences) with whitespace-shifted CAS/UN identifiers give
the same cache key. -/
theorem C6_witness :
    generate_cache_key (pystr "classificacao_onu") (some (pystr " Acetona "))
      (some (pystr "67-64-1")) (some (pystr "UN1090")) =
    generate_cache_key (pystr "classificacao_onu") (some (pystr "ACETONA"))
      (some (pystr " 67-64-1 ")) (some (pystr "UN1090 ")) :=
  C6_cache_key_normalization (pystr "classificacao_onu") _ _ _ _ _ _
    (by decide) (by decide) (by decide) (by decide) (by decide) (by decide)
    (by decide) (by decide) (by decide)

/-- Counterexample for C5: with the default 30-day TTL, an entry put at
time 0 is still returned by `get` at time 2592000, i.e. when exactly TTL
seconds have elapsed — the claim says `get` returns absent once TTL or
more seconds have elapsed. -/
theorem C5_counterexample :
    (2592000 : ℚ) - ((⌊(0 : ℚ)⌋ : ℤ) : ℚ) ≥ defaultCacheTtl ∧
    ((cacheGet
        (cachePut ⟨defaultCacheTtl, []⟩ 0 (pystr "numero_cas") (pystr "67-64-1")
          (8/10) (pystr "s") [] none none none)
        2592000 (pystr "numero_cas") none none none).1.map
      (fun e => (e.value, e.confidence))) = some (pystr "67-64-1", 8/10) := by
  constructor
  · norm_num [defaultCacheTtl]
  · have hfloor : ⌊(0 : ℚ)⌋ = 0 := Int.floor_zero
    simp only [cachePut, cacheGet, hfloor, List.filter_nil, List.lookup,
      beq_self_eq_true, cond_true, Int.cast_zero]
    rw [if_neg (by norm_num [defaultCacheTtl])]
    rfl

/-- C5 (amended): `put` followed by `get` with identical identifiers
returns the identical value and confidence as long as at most TTL
seconds have passed since the (whole-second-truncated) put timestamp;
the entry is reported absent only when strictly more than TTL seconds
have passed — at exactly TTL elapsed it is still returned, and `put`
stores `int(time.time())`, so the elapsed time is measured from
`⌊put time⌋`.  An expired entry is never returned. -/
theorem C5_cache_ttl_roundtrip (cache : FieldCacheState) (now now' : ℚ)
    (field value : Str) (conf : ℚ) (source : Str) (urls : List Str)
    (p c u : Option Str) :
    (now' - ((⌊now⌋ : ℤ) : ℚ) ≤ cache.ttl →
      ((cacheGet (cachePut cache now field value conf source urls p c u) now'
          field p c u).1.map (fun e => (e.value, e.confidence))) =
        some (value, conf))
    ∧ (now' - ((⌊now⌋ : ℤ) : ℚ) > cache.ttl →
      (cacheGet (cachePut cache now field value conf source urls p c u) now'
          field p c u).1 = none) := by
  have hlk : (cachePut cache now field value conf source urls p c u).table.lookup
      (generate_cache_key field p c u) =
      some ⟨field, value, conf, source, urls, ⌊now⌋, 0⟩ := by
    simp [cachePut, List.lookup]
  have httl : (cachePut cache now field value conf source urls p c u).ttl = cache.ttl := rfl
  constructor <;> intro h
  · simp only [cacheGet]
    rw [hlk]
    simp only [httl]
    rw [if_neg (not_lt.mpr h)]
    rfl
  · simp only [cacheGet]
    rw [hlk]
    simp only [httl]
    rw [if_pos h]

/-- Witness for C5: an entry put at time 0 is returned unchanged 100
seconds later (well within the default TTL). -/
theorem C5_witness :
    ((cacheGet
        (cachePut ⟨defaultCacheTtl, []⟩ 0 (pystr "numero_onu") (pystr "1090")
          (9/10) (pystr "s") [] none none none)
        100 (pystr "numero_onu") none none none).1.map
      (fun e => (e.value, e.confidence))) = some (pystr "1090", 9/10) :=
  (C5_cache_ttl_roundtrip ⟨defaultCacheTtl, []⟩ 0 100 (pystr "numero_onu")
    (pystr "1090") (9/10) (pystr "s") [] none none none).1
    (by norm_num [Int.floor_zero, defaultCacheTtl])

theorem runConsumes_cons (b : TokenBucket) (t : ℚ) (ts : List ℚ) :
    (runConsumes b (t :: ts)).1 =
      (runConsumes (b.consume t 1).2 ts).1 + (if (b.consume t 1).1 then 1 else 0) := rfl

theorem consume_granted (b : TokenBucket) (now : ℚ)
    (h : (b.refill now).tokens ≥ 1) :
    b.consume now 1 = (true, { b.refill now with tokens := (b.refill now).tokens - 1 }) := by
  simp only [TokenBucket.consume]
  rw [if_pos h]

theorem consume_denied (b : TokenBucket) (now : ℚ)
    (h : ¬ (b.refill now).tokens ≥ 1) :
    b.consume now 1 = (false, b.refill now) := by
  simp only [TokenBucket.consume]
  rw [if_neg h]

set_option maxHeartbeats 2000000 in
/-- Counterexample for C4: with capacity 5 and rate 2 tokens/second,
six permit requests — five at time 0 and one at time 1 — all succeed
with zero wait: strictly more than `capacity` permits within an interval
of 1 second, shorter than `capacity/rate = 2.5` seconds, yet no caller
is denied and no wait time is positive. -/
theorem C4_counterexample :
    (runRequests ⟨5, 5, 2, 0⟩ [0, 0, 0, 0, 0, 1]).1 =
      [(0, true), (0, true), (0, true), (0, true), (0, true), (0, true)] ∧
    (6 : ℚ) > 5 ∧ (1 : ℚ) - 0 < 5 / 2 := by
  refine ⟨?_, by norm_num, by norm_num⟩
  have s1 : requestPermit ⟨5, 5, 2, 0⟩ 0 = (0, true, ⟨5, 4, 2, 0⟩, 0) := by
    norm_num [requestPermit, TokenBucket.waitTime, TokenBucket.consume,
      TokenBucket.refill, min_def]
  have s2 : requestPermit ⟨5, 4, 2, 0⟩ 0 = (0, true, ⟨5, 3, 2, 0⟩, 0) := by
    norm_num [requestPermit, TokenBucket.waitTime, TokenBucket.consume,
      TokenBucket.refill, min_def]
  have s3 : requestPermit ⟨5, 3, 2, 0⟩ 0 = (0, true, ⟨5, 2, 2, 0⟩, 0) := by
    norm_num [requestPermit, TokenBucket.waitTime, TokenBucket.consume,
      TokenBucket.refill, min_def]
  have s4 : requestPermit ⟨5, 2, 2, 0⟩ 0 = (0, true, ⟨5, 1, 2, 0⟩, 0) := by
    norm_num [requestPermit, TokenBucket.waitTime, TokenBucket.consume,
      TokenBucket.refill, min_def]
  have s5 : requestPermit ⟨5, 1, 2, 0⟩ 0 = (0, true, ⟨5, 0, 2, 0⟩, 0) := by
    norm_num [requestPermit, TokenBucket.waitTime, TokenBucket.consume,
      TokenBucket.refill, min_def]
  have s6 : requestPermit ⟨5, 0, 2, 0⟩ 1 = (0, true, ⟨5, 1, 2, 1⟩, 1) := by
    norm_num [requestPermit, TokenBucket.waitTime, TokenBucket.consume,
      TokenBucket.refill, min_def]
  simp only [runRequests, s1, s2, s3, s4, s5, s6]

theorem runConsumes_budget : ∀ (ts : List ℚ) (b : TokenBucket),
    0 ≤ b.tokens → 0 ≤ b.capacity → 0 ≤ b.rate →
    List.Chain (· ≤ ·) b.last_update ts →
    ((runConsumes b ts).1 : ℚ) ≤
      b.tokens + (ts.getLastD b.last_update - b.last_update) * b.rate := by
  intro ts
  induction ts with
  | nil =>
    intro b h0 _ _ _
    simpa [runConsumes] using h0
  | cons t ts ih =>
    intro b h0 hc hr hch
    rcases List.chain_cons.mp hch with ⟨hlu, hch'⟩
    have hrefill : (b.refill t).tokens =
        min b.capacity (b.tokens + (t - b.last_update) * b.rate) := rfl
    have hmle : (b.refill t).tokens ≤ b.tokens + (t - b.last_update) * b.rate := by
      rw [hrefill]; exact min_le_right _ _
    have hm0 : 0 ≤ (b.refill t).tokens := by
      rw [hrefill]
      exact le_min hc (by nlinarith [mul_nonneg (sub_nonneg.mpr hlu) hr])
    have hring : (t - b.last_update) * b.rate + (ts.getLastD t - t) * b.rate =
        (ts.getLastD t - b.last_update) * b.rate := by ring
    rw [runConsumes_cons, List.getLastD_cons]
    by_cases hok : (b.refill t).tokens ≥ 1
    · rw [consume_granted b t hok]
      have hih := ih { b.refill t with tokens := (b.refill t).tokens - 1 }
        (by simpa using sub_nonneg.mpr hok) hc hr (by simpa [TokenBucket.refill] using hch')
      simp only [TokenBucket.refill] at hih ⊢
      simp only [if_true]
      push_cast
      push_cast at hih
      linarith [hih, hmle, hrefill]
    · rw [consume_denied b t hok]
      have hih := ih (b.refill t) hm0 hc hr (by simpa [TokenBucket.refill] using hch')
      simp only [TokenBucket.refill] at hih ⊢
      simp only [Bool.false_eq_true, if_false]
      push_cast
      push_cast at hih
      linarith [hih, hmle, hrefill]

theorem runConsumes_window (b : TokenBucket) (t : ℚ) (ts : List ℚ)
    (h0 : 0 ≤ b.tokens) (hcap : b.tokens ≤ b.capacity) (hc : 0 ≤ b.capacity)
    (hr : 0 ≤ b.rate) (hlu : b.last_update ≤ t) (hch : List.Chain (· ≤ ·) t ts) :
    ((runConsumes b (t :: ts)).1 : ℚ) ≤
      b.capacity + ((t :: ts).getLastD b.last_update - t) * b.rate := by
  have hrefill : (b.refill t).tokens =
      min b.capacity (b.tokens + (t - b.last_update) * b.rate) := rfl
  have hmcap : (b.refill t).tokens ≤ b.capacity := by rw [hrefill]; exact min_le_left _ _
  have hm0 : 0 ≤ (b.refill t).tokens := by
    rw [hrefill]
    exact le_min hc (by nlinarith [mul_nonneg (sub_nonneg.mpr hlu) hr])
  rw [runConsumes_cons, List.getLastD_cons]
  by_cases hok : (b.refill t).tokens ≥ 1
  · rw [consume_granted b t hok]
    have hih := runConsumes_budget ts { b.refill t with tokens := (b.refill t).tokens - 1 }
      (by simpa using sub_nonneg.mpr hok) hc hr (by simpa [TokenBucket.refill] using hch)
    simp only [TokenBucket.refill] at hih ⊢
    simp only [if_true]
    push_cast
    push_cast at hih
    linarith [hih, hmcap, hrefill]
  · rw [consume_denied b t hok]
    have hih := runConsumes_budget ts (b.refill t) hm0 hc hr
      (by simpa [TokenBucket.refill] using hch)
    simp only [TokenBucket.refill] at hih ⊢
    simp only [Bool.false_eq_true, if_false]
    push_cast
    push_cast at hih
    linarith [hih, hmcap, hrefill]

/-- C4 (amended): a well-formed token bucket keeps its token count in
`[0, capacity]` through every `consume`, and the number of permits
granted within a window of length `tN − t1` is bounded by
`capacity + window·rate`: if strictly more than that many single-token
permits are requested at nondecreasing times, at least one `consume`
returns `False`.  (More than `capacity` requests within less than
`capacity/rate` seconds can all be granted, because the bucket refills
during the window — see the counterexample; the correct saturation
bound is `capacity + window·rate`.) -/
theorem C4_token_bucket_bounds_and_saturation :
    (∀ (b : TokenBucket) (now amount : ℚ),
      0 ≤ b.tokens → b.tokens ≤ b.capacity → 0 ≤ b.capacity → 0 ≤ b.rate →
      b.last_update ≤ now → 0 ≤ amount →
      0 ≤ (b.consume now amount).2.tokens ∧
        (b.consume now amount).2.tokens ≤ (b.consume now amount).2.capacity)
    ∧ (∀ (b : TokenBucket) (t : ℚ) (ts : List ℚ),
      0 ≤ b.tokens → b.tokens ≤ b.capacity → 0 ≤ b.capacity → 0 ≤ b.rate →
      b.last_update ≤ t → List.Chain (· ≤ ·) t ts →
      b.capacity + ((t :: ts).getLastD b.last_update - t) * b.rate <
        ((t :: ts).length : ℚ) →
      (runConsumes b (t :: ts)).1 < (t :: ts).length) := by
  constructor
  · intro b now amount h0 hcap hc hr hlu ha
    have hrefill : (b.refill now).tokens =
        min b.capacity (b.tokens + (now - b.last_update) * b.rate) := rfl
    have hmcap : (b.refill now).tokens ≤ b.capacity := by
      rw [hrefill]; exact min_le_left _ _
    have hm0 : 0 ≤ (b.refill now).tokens := by
      rw [hrefill]
      exact le_min hc (by nlinarith [mul_nonneg (sub_nonneg.mpr hlu) hr])
    simp only [TokenBucket.consume]
    by_cases hok : (b.refill now).tokens ≥ amount
    · rw [if_pos hok]
      refine ⟨sub_nonneg.mpr hok, ?_⟩
      exact le_trans (sub_le_self _ ha) hmcap
    · rw [if_neg hok]
      exact ⟨hm0, hmcap⟩
  · intro b t ts h0 hcap hc hr hlu hch hmany
    have hw := runConsumes_window b t ts h0 hcap hc hr hlu hch
    exact_mod_cast lt_of_le_of_lt hw hmany

/-- Witness for C4: a full bucket (capacity 2, rate 1) receives three
permit requests at times 0, 0, 0: the bound 2 + 0·1 < 3 forces at least
one denial. -/
theorem C4_witness :
    (runConsumes ⟨2, 2, 1, 0⟩ [0, 0, 0]).1 < 3 :=
  C4_token_bucket_bounds_and_saturation.2 ⟨2, 2, 1, 0⟩ 0 [0, 0]
    (by norm_num) (by norm_num) (by norm_num) (by norm_num) (by norm_num)
    (by simp) (by norm_num)

/-- C7: when the field cache holds a fresh entry for the requested field
and identifiers whose confidence reaches `CONFIDENCE_THRESHOLD_LOW`, the
per-field retrieval returns exactly that cached value and performs zero
search-client calls — no search and no crawl — for that field. -/
theorem C7_cached_entry_short_circuits (cfg : RetrievalConfig)
    (cache : FieldCacheState) (now : ℚ) (searchF : SearchFn) (crawlF : CrawlFn)
    (shuffleF : ShuffleFn) (document_id : ℕ) (field : Str)
    (product cas un : Option Str) (entry : CacheRow)
    (hc : (cacheGet cache now field product cas un).1 = some entry)
    (hconf : entry.confidence ≥ CONFIDENCE_THRESHOLD_LOW) :
    (retrieve_field cfg cache now searchF crawlF shuffleF document_id field
        product cas un).1 =
      ⟨field, entry.value, entry.confidence, entry.source⟩ ∧
    (retrieve_field cfg cache now searchF crawlF shuffleF document_id field
        product cas un).2.1 = 0 ∧
    (retrieve_field cfg cache now searchF crawlF shuffleF document_id field
        product cas un).2.2.1 = 0 := by
  have hpair : cacheGet cache now field product cas un =
      (some entry, (cacheGet cache now field product cas un).2) := by
    rw [← hc]
  rw [retrieve_field, hpair]
  simp only
  rw [if_pos hconf]
  exact ⟨rfl, rfl, rfl⟩

/-- Witness for C7: a cache holding hazard class "3" at confidence 0.8
answers the retrieval with zero search and crawl calls. -/
theorem C7_witness :
    (retrieve_field ⟨400, 3, false, 2⟩
        ⟨2592000, [(generate_cache_key (pystr "classificacao_onu") none none none,
          ⟨pystr "classificacao_onu", pystr "3", 8/10, pystr "web", [], 0, 0⟩)]⟩
        10 (fun _ _ _ => none) (fun _ _ => none) (fun _ q => q)
        1 (pystr "classificacao_onu") none none none).2.1 = 0 ∧
    (retrieve_field ⟨400, 3, false, 2⟩
        ⟨2592000, [(generate_cache_key (pystr "classificacao_onu") none none none,
          ⟨pystr "classificacao_onu", pystr "3", 8/10, pystr "web", [], 0, 0⟩)]⟩
        10 (fun _ _ _ => none) (fun _ _ => none) (fun _ q => q)
        1 (pystr "classificacao_onu") none none none).2.2.1 = 0 := by
  have h := C7_cached_entry_short_circuits ⟨400, 3, false, 2⟩
    ⟨2592000, [(generate_cache_key (pystr "classificacao_onu") none none none,
      ⟨pystr "classificacao_onu", pystr "3", 8/10, pystr "web", [], 0, 0⟩)]⟩
    10 (fun _ _ _ => none) (fun _ _ => none) (fun _ q => q)
    1 (pystr "classificacao_onu") none none none
    ⟨pystr "classificacao_onu", pystr "3", 8/10, pystr "web", [], 0, 1⟩
    (by
      simp only [cacheGet, List.lookup, beq_self_eq_true, cond_true]
      rw [if_neg (by norm_num)])
    (by norm_num [CONFIDENCE_THRESHOLD_LOW])
  exact ⟨h.2.1, h.2.2⟩

/- ------------------------------------------------------------------ -/
/- C2: within-run confidence monotonicity                              -/
/- ------------------------------------------------------------------ -/

theorem c2DemoTrace :
    processTrace c2DemoParams c2DemoDb c2DemoFile (pystr "online") =
      [c2DemoRow1, c2DemoRow2] := by
  have hq1 : ¬ ((3/5 : ℚ) ≥ 82/100) := by norm_num
  have hq2 : ¬ ((3/5 : ℚ) ≥ 9/10) := by norm_num
  have hq3 : ¬ ((3/5 : ℚ) ≥ 7/10) := by norm_num
  have hq4 : (3/5 : ℚ) < 7/10 := by norm_num
  have hq5 : (11/20 : ℚ) > 1/2 := by norm_num
  have hq6 : ¬ ((11/20 : ℚ) ≥ 9/10) := by norm_num
  have hq7 : ¬ ((11/20 : ℚ) ≥ 7/10) := by norm_num
  have hb1 : ¬¬ ((0 : ℚ) ≤ 3/5 ∧ (3/5 : ℚ) ≤ 1) := by norm_num
  have hb2 : ¬¬ ((0 : ℚ) ≤ 11/20 ∧ (11/20 : ℚ) ≤ 1) := by norm_num
  have hv1 : validate_field (pystr "numero_onu") (pystr "1234") (3/5) =
      (pystr "invalid", some (pystr "Confianca abaixo do limiar minimo (0.7).")) := by
    have hchk : check_un_number (pystr "1234") = .ok (pystr "1234") := rfl
    simp only [validate_field]
    rw [show validatorFor (pystr "numero_onu") = some check_un_number from rfl]
    simp only [hchk]
    rw [if_neg hb1, if_neg hq2, if_neg hq3]
  have hv2 : validate_field (pystr "numero_onu") (pystr "5678") (11/20) =
      (pystr "invalid", some (pystr "Numero ONU fora do intervalo valido.")) := by
    have hchk : check_un_number (pystr "5678") =
        .error (pystr "Numero ONU fora do intervalo valido.") := rfl
    simp only [validate_field]
    rw [show validatorFor (pystr "numero_onu") = some check_un_number from rfl]
    simp only [hchk]
  have hrun : run_field_extractions 1
      [⟨pystr "numero_onu", pystr "Numero ONU", pystr "T"⟩]
      [⟨pystr "S", pystr "t"⟩]
      [(pystr "numero_onu", ⟨pystr "1234", 3/5, pystr "ctx", []⟩)]
      none none (82/100) false = ([c2DemoRow1], 0) := by
    rw [run_field_extractions, if_neg (by simp)]
    simp only [Option.isNone_none, Bool.or_true]
    simp only [runFieldsGo, List.lookup, beq_self_eq_true, cond_true,
      Option.getD_some, Bool.true_or, if_true, hv1]
    rfl
  simp only [processTrace, process]
  rw [if_neg (by norm_num [c2DemoParams, c2DemoFile])]
  rw [if_neg (by simp [c2DemoParams])]
  simp only [c2DemoParams, c2DemoDb, c2DemoFile, registerDocument,
    clearDocumentExtractions, updateDocumentStatus, List.find?, List.filter]
  rw [hrun]
  simp only [List.nil_append]
  have henrich : enrich_with_onu_table 1 ([c2DemoRow1], (0 : ℕ)).1
      (fun _ => (none : Option OnuEntry)) = [] := rfl
  rw [henrich]
  simp only [List.append_nil]
  rw [if_pos (show pyLower (pystr "online") = pystr "online" from rfl)]
  have honline : search_online_for_missing_fields 1
      [⟨pystr "numero_onu", pystr "Numero ONU", pystr "T"⟩]
      [c2DemoRow1]
      (some (fun _ _ _ ms =>
        some (if pystr "numero_onu" ∈ ms
              then [(pystr "numero_onu", ⟨pystr "5678", 11/20, [], []⟩)]
              else []))) = [c2DemoRow2] := by
    have hlat : latestRow [c2DemoRow1] 1 (pystr "numero_onu") =
        some c2DemoRow1 := rfl
    have hp1 : c2DemoRow1.confidence = 3/5 := rfl
    have hp2 : c2DemoRow1.value = pystr "1234" := rfl
    have hp3 : c2DemoRow1.validation_status = pystr "invalid" := rfl
    have hne : ¬ (pystr "1234" = naoEncontrado) := by decide
    have hnotmem : ¬ (pystr "incompatibilidades" ∈ [pystr "numero_onu"]) := by decide
    simp only [search_online_for_missing_fields, missingList, knownPair, missingFieldName,
      hlat, hp1, hp2, hp3, hne, hq3,
      hq4, hq5, hv2, hnotmem, List.filterMap, List.lookup, onlineRowFor, false_and,
      if_false, eq_self_iff_true, true_or, or_true, if_true, List.mem_cons,
      List.mem_singleton]
    rw [if_neg (by simp)]
    simp [c2DemoRow2]
  rw [honline]
  rfl

theorem pair_sublist_append {α : Type} {r1 r2 : α} {a b : List α}
    (h : [r1, r2].Sublist (a ++ b)) :
    [r1, r2].Sublist a ∨ [r1, r2].Sublist b ∨ (r1 ∈ a ∧ r2 ∈ b) := by
  rcases List.sublist_append_iff.mp h with ⟨l1, l2, heq, h1, h2⟩
  match l1, heq with
  | [], heq =>
    right; left
    rw [show l2 = [r1, r2] from heq.symm] at h2
    exact h2
  | [x], heq =>
    right; right
    injection heq with hx hrest
    subst hx
    rw [show l2 = [r2] from hrest.symm] at h2
    exact ⟨h1.subset (List.mem_singleton_self r1),
           h2.subset (List.mem_singleton_self r2)⟩
  | x :: y :: l, heq =>
    left
    injection heq with hx hrest
    injection hrest with hy hnil
    subst hx
    subst hy
    have : l ++ l2 = [] := hnil.symm
    rcases List.append_eq_nil.mp this with ⟨hl, -⟩
    subst hl
    exact h1

theorem sublist_pair_map_ne {α β : Type} {f : α → β} {l : List α} {x y : α}
    (hnd : (l.map f).Nodup) (h : [x, y].Sublist l) : f x ≠ f y := by
  have hm : [f x, f y].Sublist (l.map f) := by
    simpa using h.map f
  have := hnd.sublist hm
  simp only [List.nodup_cons, List.mem_singleton] at this
  exact this.1

theorem latestRow_mem {rows : List ExtractionRow} {docId : ℕ} {f : Str}
    {r : ExtractionRow} (h : latestRow rows docId f = some r) :
    r ∈ rows ∧ r.document_id = docId ∧ r.field_name = f := by
  unfold latestRow at h
  have hmem : r ∈ rows.filter (fun q => q.document_id == docId && q.field_name == f) := by
    obtain ⟨hne, heq⟩ := List.mem_getLast?_eq_getLast (Option.mem_def.mpr h)
    rw [heq]
    exact List.getLast_mem hne
  have hfil := List.mem_filter.mp hmem
  have hp := hfil.2
  simp only [Bool.and_eq_true, beq_iff_eq] at hp
  exact ⟨hfil.1, hp.1, hp.2⟩

theorem latestRow_append (a b : List ExtractionRow) (docId : ℕ) (f : Str) :
    latestRow (a ++ b) docId f =
      ((latestRow b docId f).or (latestRow a docId f)) := by
  unfold latestRow
  rw [List.filter_append]
  by_cases hb : (b.filter (fun r => r.document_id == docId && r.field_name == f)) = []
  · rw [hb, List.append_nil]
    simp
  · rw [List.getLast?_append_of_ne_nil _ hb]
    cases hg : (b.filter (fun r => r.document_id == docId && r.field_name == f)).getLast? with
    | none => exact absurd (List.getLast?_eq_none_iff.mp hg) hb
    | some r => simp

theorem latestRow_other_docs (a b : List ExtractionRow) (docId : ℕ) (f : Str)
    (ha : ∀ r ∈ a, r.document_id ≠ docId) :
    latestRow (a ++ b) docId f = latestRow b docId f := by
  unfold latestRow
  rw [List.filter_append, List.filter_eq_nil_iff.mpr, List.nil_append]
  intro r hr
  simp only [Bool.and_eq_true, beq_iff_eq, not_and]
  intro hd
  exact absurd hd (ha r hr)

theorem latestRow_unique {rows : List ExtractionRow} {docId : ℕ} {r : ExtractionRow}
    (hnd : (rows.map ExtractionRow.field_name).Nodup) (hr : r ∈ rows)
    (hdoc : r.document_id = docId) :
    latestRow rows docId r.field_name = some r := by
  induction rows with
  | nil => cases hr
  | cons x rest ih =>
    simp only [List.map_cons, List.nodup_cons] at hnd
    rcases List.mem_cons.mp hr with rfl | hr2
    · have hrest : rest.filter
          (fun q => q.document_id == docId && q.field_name == r.field_name) = [] := by
        apply List.filter_eq_nil_iff.mpr
        intro q hq
        simp only [Bool.and_eq_true, beq_iff_eq, not_and]
        intro _ hfe
        exact hnd.1 (by rw [← hfe]; exact List.mem_map_of_mem ExtractionRow.field_name hq)
      have hpred : ((fun q => q.document_id == docId && q.field_name == r.field_name) r) = true := by
        simp [hdoc]
      unfold latestRow
      rw [List.filter_cons, if_pos hpred, hrest]
      rfl
    · have hxne : ¬ ((fun q => q.document_id == docId && q.field_name == r.field_name) x) = true := by
        simp only [Bool.and_eq_true, beq_iff_eq, not_and]
        intro _ hfe
        exact hnd.1 (by rw [hfe]; exact List.mem_map_of_mem ExtractionRow.field_name hr2)
      unfold latestRow
      rw [List.filter_cons, if_neg hxne]
      exact ih hnd.2 hr2

theorem runFieldsGo_map_name (document_id : ℕ) (chunks : List Chunk)
    (hints : List (Str × Candidate)) (llm : Option LlmFn)
    (vec : Option (Str → List Chunk)) (skipThr : ℚ) (skipAll : Bool) :
    ∀ fields, ((runFieldsGo document_id chunks hints llm vec skipThr skipAll
        fields).1.map ExtractionRow.field_name) =
      fields.map FieldExtractionConfig.name := by
  intro fields
  induction fields with
  | nil => rfl
  | cons f rest ih =>
    simp only [runFieldsGo, List.map_cons]
    rw [← ih]

theorem runFieldsGo_mem (document_id : ℕ) (chunks : List Chunk)
    (hints : List (Str × Candidate)) (llm : Option LlmFn)
    (vec : Option (Str → List Chunk)) (skipThr : ℚ) (skipAll : Bool) :
    ∀ fields r, r ∈ (runFieldsGo document_id chunks hints llm vec skipThr skipAll
        fields).1 → r.document_id = document_id ∧ r.origin = .fieldPass := by
  intro fields
  induction fields with
  | nil => intro r hr; cases hr
  | cons f rest ih =>
    intro r hr
    simp only [runFieldsGo] at hr
    rcases List.mem_cons.mp hr with rfl | hr2
    · exact ⟨rfl, rfl⟩
    · exact ih r hr2

theorem run_field_extractions_map_name (document_id : ℕ)
    (fields : List FieldExtractionConfig) (chunks : List Chunk)
    (hints : List (Str × Candidate)) (llm : Option LlmFn)
    (vec : Option (Str → List Chunk)) (skipThr : ℚ) (force : Bool) :
    ((run_field_extractions document_id fields chunks hints llm vec skipThr
        force).1.map ExtractionRow.field_name) = [] ∨
    ((run_field_extractions document_id fields chunks hints llm vec skipThr
        force).1.map ExtractionRow.field_name) =
      fields.map FieldExtractionConfig.name := by
  rw [run_field_extractions]
  by_cases hch : chunks = []
  · rw [if_pos hch]; left; rfl
  · rw [if_neg hch]; right; exact runFieldsGo_map_name _ _ _ _ _ _ _ _

theorem run_field_extractions_mem (document_id : ℕ)
    (fields : List FieldExtractionConfig) (chunks : List Chunk)
    (hints : List (Str × Candidate)) (llm : Option LlmFn)
    (vec : Option (Str → List Chunk)) (skipThr : ℚ) (force : Bool) (r : ExtractionRow)
    (hr : r ∈ (run_field_extractions document_id fields chunks hints llm vec skipThr
        force).1) : r.document_id = document_id ∧ r.origin = .fieldPass := by
  rw [run_field_extractions] at hr
  by_cases hch : chunks = []
  · rw [if_pos hch] at hr; cases hr
  · rw [if_neg hch] at hr; exact runFieldsGo_mem _ _ _ _ _ _ _ _ r hr

theorem onuTableRowFor_spec (document_id : ℕ)
    (details : Str → Option ExtractionRow) (f new_val : Str) (r : ExtractionRow)
    (h : onuTableRowFor document_id details f new_val = some r) :
    r.document_id = document_id ∧ r.field_name = f ∧ r.confidence = 95/100 ∧
    r.origin = .onuTable ∧
    (∀ cur, details f = some cur →
      cur.value = [] ∨ cur.value = naoEncontrado ∨ cur.confidence < 7/10) := by
  unfold onuTableRowFor at h
  by_cases h1 : (match details f with
      | some q => q.value
      | none => []) ≠ [] ∧
    (match details f with
      | some q => q.value
      | none => []) ≠ naoEncontrado ∧
    (match details f with
      | some q => q.confidence
      | none => (0:ℚ)) ≥ 7/10
  · rw [if_pos h1] at h; cases h
  · rw [if_neg h1] at h
    by_cases h2 : new_val = []
    · rw [if_pos h2] at h; cases h
    · rw [if_neg h2] at h
      injection h with h
      subst h
      push_neg at h1
      refine ⟨rfl, rfl, rfl, rfl, ?_⟩
      intro cur hcur
      rw [hcur] at h1
      simp only at h1
      by_cases hv : cur.value = []
      · exact Or.inl hv
      · by_cases hnf : cur.value = naoEncontrado
        · exact Or.inr (Or.inl hnf)
        · exact Or.inr (Or.inr (h1 hv hnf))

theorem enrich_mem (document_id : ℕ) (rows : List ExtractionRow)
    (lookup_un : Str → Option OnuEntry) (r : ExtractionRow)
    (hr : r ∈ enrich_with_onu_table document_id rows lookup_un) :
    r.document_id = document_id ∧ r.origin = .onuTable ∧ r.confidence = 95/100 ∧
    (∀ cur, latestRow rows document_id r.field_name = some cur →
      cur.value = [] ∨ cur.value = naoEncontrado ∨ cur.confidence < 7/10) := by
  unfold enrich_with_onu_table at hr
  dsimp only [] at hr
  cases hlk : lookup_un (match latestRow rows document_id (pystr "numero_onu") with
    | some q => q.value
    | none => []) with
  | none => rw [hlk] at hr; cases hr
  | some entry =>
    rw [hlk] at hr
    dsimp only [] at hr
    rw [List.reduceOption_mem_iff] at hr
    rcases List.mem_cons.mp hr with he | hr2
    · obtain ⟨h1, h2, h3, h4, h5⟩ := onuTableRowFor_spec _ _ _ _ r he.symm
      exact ⟨h1, h4, h3, by rw [h2]; exact h5⟩
    · rcases List.mem_cons.mp hr2 with he | hr3
      · obtain ⟨h1, h2, h3, h4, h5⟩ := onuTableRowFor_spec _ _ _ _ r he.symm
        exact ⟨h1, h4, h3, by rw [h2]; exact h5⟩
      · cases hr3

theorem enrich_map_name_nodup (document_id : ℕ) (rows : List ExtractionRow)
    (lookup_un : Str → Option OnuEntry) :
    ((enrich_with_onu_table document_id rows lookup_un).map
      ExtractionRow.field_name).Nodup := by
  unfold enrich_with_onu_table
  dsimp only []
  cases lookup_un (match latestRow rows document_id (pystr "numero_onu") with
    | some q => q.value
    | none => []) with
  | none => simp
  | some entry =>
    dsimp only []
    cases ha : onuTableRowFor document_id (latestRow rows document_id)
        (pystr "classificacao_onu") entry.classificacao_onu with
    | none =>
      cases hb : onuTableRowFor document_id (latestRow rows document_id)
          (pystr "grupo_embalagem") entry.grupo_embalagem with
      | none => simp [List.reduceOption]
      | some rb => simp [List.reduceOption]
    | some ra =>
      cases hb : onuTableRowFor document_id (latestRow rows document_id)
          (pystr "grupo_embalagem") entry.grupo_embalagem with
      | none => simp [List.reduceOption]
      | some rb =>
        have hna := (onuTableRowFor_spec _ _ _ _ ra ha).2.1
        have hnb := (onuTableRowFor_spec _ _ _ _ rb hb).2.1
        simp [List.reduceOption, hna, hnb]
        decide


theorem updateDocumentStatus_extractions (db : Db) (i : ℕ) (st : Str) :
    (updateDocumentStatus db i st).extractions = db.extractions := rfl

theorem clearDocumentExtractions_mem (db : Db) (i : ℕ) :
    ∀ q ∈ (clearDocumentExtractions db i).extractions, q.document_id ≠ i := by
  intro q hq
  have hp := List.of_mem_filter hq
  simpa using hp

theorem onlineRowFor_spec (document_id : ℕ) (fr : Str × Candidate) (r : ExtractionRow)
    (h : onlineRowFor document_id fr = some r) :
    r.document_id = document_id ∧ r.field_name = fr.1 ∧
    r.confidence = fr.2.confidence ∧ r.origin = .onlineSearch ∧
    1/2 < fr.2.confidence := by
  unfold onlineRowFor at h
  split at h
  · injection h with h
    subst h
    rename_i hc
    exact ⟨rfl, rfl, rfl, rfl, hc⟩
  · cases h

theorem missingFieldName_spec (details : Str → Option ExtractionRow)
    (field : FieldExtractionConfig) (f : Str)
    (h : missingFieldName details field = some f) :
    field.name = f ∧ (∀ cur, details f = some cur →
      cur.confidence < 7/10 ∨ cur.validation_status = pystr "invalid" ∨
        cur.value = naoEncontrado) := by
  unfold missingFieldName at h
  dsimp only [] at h
  split at h
  · cases h
  · split at h
    · rename_i hB
      injection h with h
      refine ⟨h, ?_⟩
      intro cur hcur
      rw [← h] at hcur
      rw [hcur] at hB
      simpa using hB
    · cases h

theorem missingList_mem {fields : List FieldExtractionConfig}
    {details : Str → Option ExtractionRow} {f : Str}
    (h : f ∈ missingList fields details) :
    f ∈ fields.filterMap (missingFieldName details) ∨
      f = pystr "incompatibilidades" := by
  unfold missingList at h
  dsimp only [] at h
  split at h
  · exact Or.inl h
  · rcases List.mem_append.mp h with h | h
    · exact Or.inl h
    · exact Or.inr (List.mem_singleton.mp h)

theorem onlineRows_names_sublist (document_id : ℕ) :
    ∀ res : List (Str × Candidate),
      ((res.filterMap (onlineRowFor document_id)).map ExtractionRow.field_name).Sublist
        (res.map Prod.fst) := by
  intro res
  induction res with
  | nil => exact List.Sublist.refl _
  | cons fr rest ih =>
    rw [List.filterMap_cons]
    cases h : onlineRowFor document_id fr with
    | none =>
      rw [List.map_cons]
      exact ih.cons _
    | some r =>
      rw [List.map_cons, List.map_cons, (onlineRowFor_spec document_id fr r h).2.1]
      exact ih.cons₂ _

theorem online_map_name_nodup (document_id : ℕ) (fields : List FieldExtractionConfig)
    (rows : List ExtractionRow) (client : Option OnlineClientFn)
    (hclient : ∀ clientF, client = some clientF → ∀ pn cn un ms res,
      clientF pn cn un ms = some res → (res.map Prod.fst).Nodup) :
    ((search_online_for_missing_fields document_id fields rows client).map
      ExtractionRow.field_name).Nodup := by
  unfold search_online_for_missing_fields
  cases hcl : client with
  | none => simp
  | some clientF =>
    dsimp only []
    split
    · simp
    · split
      · simp
      · rename_i hne res hres
        exact (hclient clientF hcl _ _ _ _ res hres).sublist
          (onlineRows_names_sublist document_id res)

theorem online_mem (document_id : ℕ) (fields : List FieldExtractionConfig)
    (rows : List ExtractionRow) (client : Option OnlineClientFn)
    (hclient : ∀ clientF, client = some clientF → ∀ pn cn un ms res,
      clientF pn cn un ms = some res → ∀ fr ∈ res, fr.1 ∈ ms)
    (r : ExtractionRow)
    (hr : r ∈ search_online_for_missing_fields document_id fields rows client) :
    r.document_id = document_id ∧ r.origin = .onlineSearch ∧ 1/2 < r.confidence ∧
    (r.field_name = pystr "incompatibilidades" ∨
      ∀ cur, latestRow rows document_id r.field_name = some cur →
        cur.confidence < 7/10 ∨ cur.validation_status = pystr "invalid" ∨
          cur.value = naoEncontrado) := by
  unfold search_online_for_missing_fields at hr
  cases hcl : client with
  | none => rw [hcl] at hr; cases hr
  | some clientF =>
    rw [hcl] at hr
    dsimp only [] at hr
    split at hr
    · cases hr
    · split at hr
      · cases hr
      · rename_i hne res hres
        obtain ⟨fr, hfrmem, hfreq⟩ := List.mem_filterMap.mp hr
        obtain ⟨hd, hf, hc, ho, hgt⟩ := onlineRowFor_spec document_id fr r hfreq
        have hms := hclient clientF hcl _ _ _ _ res hres fr hfrmem
        refine ⟨hd, ho, by rw [hc]; exact hgt, ?_⟩
        rcases missingList_mem hms with h0 | h0
        · right
          obtain ⟨field, hfield, hfeq⟩ := List.mem_filterMap.mp h0
          obtain ⟨-, hcond⟩ := missingFieldName_spec _ _ _ hfeq
          rw [hf]
          exact hcond
        · left
          rw [hf, h0]


set_option maxHeartbeats 1600000 in
/-- C2 (corrected): within one `process` run, a persisted extraction row's
confidence CAN regress below an earlier same-run row for the same field
(see `C2_counterexample`).  Amended property: whenever a later row `r2`
follows an earlier row `r1` for the same field in one run's trace, `r2`
was written by the offline UN-table enrichment or by the online
completion step, its confidence still exceeds 0.5, and the overwritten
state was already weak: either the field is the always-searched
`incompatibilidades`, or `r1` had confidence below 0.7, an invalid
validation status, the not-found sentinel, or an empty value.  The
client hypothesis says any online result list has distinct field names
drawn from the requested missing fields; the fields hypothesis says the
configured field names are distinct. -/
theorem C2_confidence_regression (P : ProcessorParams) (db : Db) (file : FileInfo)
    (mode : Str)
    (hfields : (P.fields.map FieldExtractionConfig.name).Nodup)
    (hclient : ∀ clientF, P.online_client = some clientF →
      ∀ pn cn un ms res, clientF pn cn un ms = some res →
        (res.map Prod.fst).Nodup ∧ ∀ fr ∈ res, fr.1 ∈ ms)
    (r1 r2 : ExtractionRow)
    (hsub : [r1, r2].Sublist (processTrace P db file mode))
    (hsame : r1.field_name = r2.field_name)
    (hreg : r2.confidence < r1.confidence) :
    (r2.origin = .onuTable ∨ r2.origin = .onlineSearch) ∧ 1/2 < r2.confidence ∧
    (r2.field_name = pystr "incompatibilidades" ∨ r1.confidence < 7/10 ∨
      r1.validation_status = pystr "invalid" ∨ r1.value = naoEncontrado ∨
      r1.value = []) := by
  have hclN : ∀ clientF, P.online_client = some clientF →
      ∀ pn cn un ms res, clientF pn cn un ms = some res →
        (res.map Prod.fst).Nodup :=
    fun cf hcf pn cn un ms res hres => (hclient cf hcf pn cn un ms res hres).1
  have hclM : ∀ clientF, P.online_client = some clientF →
      ∀ pn cn un ms res, clientF pn cn un ms = some res → ∀ fr ∈ res, fr.1 ∈ ms :=
    fun cf hcf pn cn un ms res hres => (hclient cf hcf pn cn un ms res hres).2
  simp only [processTrace, process] at hsub
  by_cases hsize : file.size > P.max_file_size_mb * 1024 * 1024
  · rw [if_pos hsize] at hsub
    dsimp only [] at hsub
    exact absurd (List.sublist_nil.mp hsub) (List.cons_ne_nil _ _)
  · rw [if_neg hsize] at hsub
    by_cases hcan : P.can_handle file
    · rw [if_neg (not_not_intro hcan)] at hsub
      rcases hrd : registerDocument db file with ⟨document_id, db1⟩
      rw [hrd] at hsub
      dsimp only [] at hsub
      cases hex : P.extract file with
      | none =>
        rw [hex] at hsub
        dsimp only [] at hsub
        by_cases hmode : pyLower mode = pystr "online"
        · rw [if_pos hmode] at hsub
          have hnd := online_map_name_nodup document_id P.fields
            (updateDocumentStatus (clearDocumentExtractions db1 document_id)
              document_id (pystr "failed")).extractions P.online_client hclN
          exact absurd hsame (sublist_pair_map_ne hnd hsub)
        · rw [if_neg hmode] at hsub
          exact absurd (List.sublist_nil.mp hsub) (List.cons_ne_nil _ _)
      | some data =>
        rw [hex] at hsub
        dsimp only [] at hsub
        rcases hrun : run_field_extractions document_id P.fields data.chunks data.hints
            P.llm P.vec P.heuristic_confidence_skip false with ⟨rows1, calls⟩
        rw [hrun] at hsub
        simp only [updateDocumentStatus_extractions] at hsub
        have hnd1 : (rows1.map ExtractionRow.field_name).Nodup := by
          rcases run_field_extractions_map_name document_id P.fields data.chunks
              data.hints P.llm P.vec P.heuristic_confidence_skip false with h | h
          · rw [hrun] at h
            dsimp only [] at h
            rw [h]
            exact List.nodup_nil
          · rw [hrun] at h
            dsimp only [] at h
            rw [h]
            exact hfields
        have hmem1 : ∀ r, r ∈ rows1 → r.document_id = document_id ∧
            r.origin = RowOrigin.fieldPass := by
          intro r hr
          refine run_field_extractions_mem document_id P.fields data.chunks data.hints
            P.llm P.vec P.heuristic_confidence_skip false r ?_
          rw [hrun]
          exact hr
        have hclear := clearDocumentExtractions_mem db1 document_id
        have hlat1 : ∀ r, r ∈ rows1 → r.field_name = r2.field_name →
            latestRow ((clearDocumentExtractions db1 document_id).extractions ++ rows1)
              document_id r2.field_name = some r := by
          intro r hr hname
          rw [latestRow_other_docs _ _ _ _ hclear, ← hname]
          exact latestRow_unique hnd1 hr (hmem1 r hr).1
        have hnd2 := enrich_map_name_nodup document_id
          ((clearDocumentExtractions db1 document_id).extractions ++ rows1) P.lookup_un
        rcases pair_sublist_append hsub with h12 | h3 | ⟨hr1, hr2⟩
        · rcases pair_sublist_append h12 with h1 | h2 | ⟨hm1, hm2⟩
          · exact absurd hsame (sublist_pair_map_ne hnd1 h1)
          · exact absurd hsame (sublist_pair_map_ne hnd2 h2)
          · obtain ⟨hd2, ho2, hc2, hcond⟩ := enrich_mem document_id _ P.lookup_un r2 hm2
            have hlat := hlat1 r1 hm1 hsame
            rcases hcond r1 hlat with hv | hv | hv
            · exact ⟨Or.inl ho2, by rw [hc2]; norm_num,
                Or.inr (Or.inr (Or.inr (Or.inr hv)))⟩
            · exact ⟨Or.inl ho2, by rw [hc2]; norm_num,
                Or.inr (Or.inr (Or.inr (Or.inl hv)))⟩
            · exact ⟨Or.inl ho2, by rw [hc2]; norm_num, Or.inr (Or.inl hv)⟩
        · by_cases hmode : pyLower mode = pystr "online"
          · rw [if_pos hmode] at h3
            have hnd3 := online_map_name_nodup document_id P.fields
              ((clearDocumentExtractions db1 document_id).extractions ++ rows1 ++
                enrich_with_onu_table document_id
                  ((clearDocumentExtractions db1 document_id).extractions ++ rows1)
                  P.lookup_un) P.online_client hclN
            exact absurd hsame (sublist_pair_map_ne hnd3 h3)
          · rw [if_neg hmode] at h3
            exact absurd (List.sublist_nil.mp h3) (List.cons_ne_nil _ _)
        · by_cases hmode : pyLower mode = pystr "online"
          case neg =>
            rw [if_neg hmode] at hr2
            cases hr2
          rw [if_pos hmode] at hr2
          obtain ⟨hd2, ho2, hgt2, hcase⟩ := online_mem document_id P.fields _
            P.online_client hclM r2 hr2
          refine ⟨Or.inr ho2, hgt2, ?_⟩
          rcases hcase with hinc | hcond
          · exact Or.inl hinc
          · rcases List.mem_append.mp hr1 with hm1 | hm2
            · cases hlat2 : latestRow (enrich_with_onu_table document_id
                  ((clearDocumentExtractions db1 document_id).extractions ++ rows1)
                  P.lookup_un) document_id r2.field_name with
              | some q =>
                obtain ⟨hqmem, hqdoc, hqname⟩ := latestRow_mem hlat2
                obtain ⟨-, -, -, hcond2⟩ := enrich_mem document_id _ P.lookup_un q hqmem
                rw [hqname] at hcond2
                rcases hcond2 r1 (hlat1 r1 hm1 hsame) with hv | hv | hv
                · exact Or.inr (Or.inr (Or.inr (Or.inr hv)))
                · exact Or.inr (Or.inr (Or.inr (Or.inl hv)))
                · exact Or.inr (Or.inl hv)
              | none =>
                have hlatall : latestRow
                    ((clearDocumentExtractions db1 document_id).extractions ++ rows1 ++
                      enrich_with_onu_table document_id
                        ((clearDocumentExtractions db1 document_id).extractions ++ rows1)
                        P.lookup_un) document_id r2.field_name = some r1 := by
                  rw [latestRow_append, hlat2, Option.none_or]
                  exact hlat1 r1 hm1 hsame
                rcases hcond r1 hlatall with hv | hv | hv
                · exact Or.inr (Or.inl hv)
                · exact Or.inr (Or.inr (Or.inl hv))
                · exact Or.inr (Or.inr (Or.inr (Or.inl hv)))
            · obtain ⟨hd1, -, -, -⟩ := enrich_mem document_id _ P.lookup_un r1 hm2
              have hlatr1 : latestRow
                  ((clearDocumentExtractions db1 document_id).extractions ++ rows1 ++
                    enrich_with_onu_table document_id
                      ((clearDocumentExtractions db1 document_id).extractions ++ rows1)
                      P.lookup_un) document_id r2.field_name = some r1 := by
                rw [latestRow_append, ← hsame]
                rw [latestRow_unique hnd2 hm2 hd1]
                rfl
              rcases hcond r1 hlatr1 with hv | hv | hv
              · exact Or.inr (Or.inl hv)
              · exact Or.inr (Or.inr (Or.inl hv))
              · exact Or.inr (Or.inr (Or.inr (Or.inl hv)))
    · rw [if_pos hcan] at hsub
      dsimp only [] at hsub
      exact absurd (List.sublist_nil.mp hsub) (List.cons_ne_nil _ _)


/-- C2 counterexample: a concrete run in which the field-pass row for
`numero_onu` (confidence 0.6) is followed in the same run by an online
completion row for the same field at the lower confidence 0.55 - the
online step stores any result above 0.5 for a missing field without
comparing against the stored confidence, so the claimed within-run
monotonicity is false. -/
theorem C2_counterexample :
    ∃ r1 r2 : ExtractionRow,
      [r1, r2].Sublist (processTrace c2DemoParams c2DemoDb c2DemoFile (pystr "online")) ∧
      r1.field_name = r2.field_name ∧ r2.origin = RowOrigin.onlineSearch ∧
      r2.confidence < r1.confidence := by
  refine ⟨c2DemoRow1, c2DemoRow2, ?_, rfl, rfl, ?_⟩
  · rw [c2DemoTrace]
  · norm_num [c2DemoRow1, c2DemoRow2]

/-- C2 witness: the amended theorem applied to the concrete demo run. -/
theorem C2_witness :
    (c2DemoParams.fields.map FieldExtractionConfig.name).Nodup ∧
    c2DemoRow1.field_name = c2DemoRow2.field_name ∧
    c2DemoRow2.confidence < c2DemoRow1.confidence ∧
    ((c2DemoRow2.origin = RowOrigin.onuTable ∨
        c2DemoRow2.origin = RowOrigin.onlineSearch) ∧
      1/2 < c2DemoRow2.confidence ∧
      (c2DemoRow2.field_name = pystr "incompatibilidades" ∨
        c2DemoRow1.confidence < 7/10 ∨
        c2DemoRow1.validation_status = pystr "invalid" ∨
        c2DemoRow1.value = naoEncontrado ∨ c2DemoRow1.value = [])) := by
  refine ⟨by decide, rfl, by norm_num [c2DemoRow1, c2DemoRow2], ?_⟩
  refine C2_confidence_regression c2DemoParams c2DemoDb c2DemoFile (pystr "online")
    (by decide) ?_ c2DemoRow1 c2DemoRow2
    (by rw [c2DemoTrace]) rfl (by norm_num [c2DemoRow1, c2DemoRow2])
  intro clientF hcf pn cn un ms res hres
  injection hcf with hcf
  subst hcf
  dsimp only [] at hres
  injection hres with hres
  subst hres
  by_cases hin : pystr "numero_onu" ∈ ms
  · rw [if_pos hin]
    refine ⟨by simp, ?_⟩
    intro fr hfr
    rw [List.mem_singleton] at hfr
    subst hfr
    exact hin
  · rw [if_neg hin]
    exact ⟨List.nodup_nil, by intro fr hfr; cases hfr⟩

end SdsMatrix
